import Mathlib

/-!
Verification of the Save Eat recipe recommender core.

This file is a shallow embedding of the parts of the repository that the
checked properties talk about:

* `src/api/endpoints.py` — the allergy / dietary / nutrition / disliked /
  prep-time profile filters, the GNN-path allergy post-filter with its
  back-off, and the database fallback recommender
  (`_get_fallback_recommendations`);
* `src/data/graph_builder.py` — edge construction with the three disjoint
  node-index ranges;
* `src/training/train.py` — the checkpoint / early-stopping state machine;
* `src/training/evaluation.py` — NDCG@k, Recall@k and MRR;
* `src/models/reranker.py` — `encode_context`.

Python floats are modelled as rationals (`ℚ`); the real-valued DCG
(which divides by `log2`) lives in `ℝ`.  Python strings are Lean `String`s;
`str.lower()` / `str.strip()` are char-list maps/trims
(ASCII case folding — the repository's ingredient data is ASCII).
-/

namespace SaveEat

open scoped List

/-! ## Strings: normalization and Python's substring test

Characters are processed through the character list of the string (the
byte-position-based core `String` routines compute the same thing but do
not reduce definitionally). -/

/-- Python `s.lower()` (ASCII case folding). -/
def pyLower (s : String) : String := ⟨s.data.map Char.toLower⟩

/-- Python `s.strip()`: drop leading and trailing whitespace. -/
def pyStrip (s : String) : String :=
  ⟨((s.data.dropWhile Char.isWhitespace).reverse.dropWhile
      Char.isWhitespace).reverse⟩

/-- Python `s.split(",")`: every comma separates, `n` commas give `n + 1`
pieces. -/
def splitCommaAux : List Char → List Char → List (List Char)
  | [], cur => [cur.reverse]
  | c :: rest, cur =>
      if c = ',' then cur.reverse :: splitCommaAux rest []
      else splitCommaAux rest (c :: cur)

def pySplitComma (s : String) : List String :=
  (splitCommaAux s.data []).map fun l => ⟨l⟩

/-- Python `str(x).lower().strip()`, the normalization applied to every
ingredient, allergen, restriction and disliked-ingredient string. -/
def normalizeIng (s : String) : String := pyStrip (pyLower s)

/-- Boolean prefix test on character lists. -/
def isPrefixOfB : List Char → List Char → Bool
  | [], _ => true
  | _ :: _, [] => false
  | a :: as, b :: bs => a == b && isPrefixOfB as bs

/-- Helper for `containsSubstr`: does `needle` occur in the second list? -/
def subListOccurs (needle : List Char) : List Char → Bool
  | [] => isPrefixOfB needle []
  | b :: t => isPrefixOfB needle (b :: t) || subListOccurs needle t

/-- Python's `needle in hay` substring test. -/
def containsSubstr (needle hay : String) : Bool :=
  subListOccurs needle.toList hay.toList

/-! ## Data model

Recipe rows and user profiles as the endpoints code reads them from the
store.  The `ingredients_list` column is dynamically typed in the source:
a real list, a string, or missing (`None` / `NaN`). -/

/-- The `ingredients_list` column value of a recipe row.

* `listVal l` — an actual list (elements coerced with `str`);
* `strVal raw (some l)` — a string whose `ast.literal_eval` yields the list
  `l` (after `str` coercion of the elements);
* `strVal raw none` — a string that does not parse to a list
  (`ast.literal_eval` raises, or returns a non-collection);
* `missing` — `None` / `NaN`, or any other non-list type. -/
inductive IngredientsField where
  | missing : IngredientsField
  | strVal : String → Option (List String) → IngredientsField
  | listVal : List String → IngredientsField
deriving DecidableEq

structure Recipe where
  recipe_id : ℕ
  name : String
  ingredients : IngredientsField
  prep_time : Option ℚ
  calories : Option ℚ
  protein : Option ℚ
  carbohydrates : Option ℚ
  total_fat : Option ℚ
deriving DecidableEq

/-- A user profile as returned by `get_user_profile`.  `none` / `[]` both
model Python's falsy "no constraint" values. -/
structure UserProfile where
  allergies : List String
  dietary_restrictions : List String
  max_calories : Option ℚ
  min_protein : Option ℚ
  max_carbs : Option ℚ
  max_fat : Option ℚ
  disliked_ingredients : List String
  max_prep_time : Option ℚ
deriving DecidableEq

/-- Python truthiness of an optional numeric field: `None` and `0` are falsy. -/
def optTruthy : Option ℚ → Bool
  | none => false
  | some x => decide (x ≠ 0)

/-! ## The substring-based profile filters (endpoints.py:721-983)

`filter_recipes_by_allergies`, `filter_recipes_by_dietary_restrictions` and
`filter_recipes_by_disliked_ingredients` share one inner predicate shape:
non-list or empty column values never match; every ingredient is
lower-cased and stripped, then each normalized needle is tested as a
substring. -/

/-- The shared inner predicate (`has_allergen` / `has_forbidden_ingredient` /
`has_disliked_ingredient`).  `needles` are already normalized. -/
def rowContainsAny (v : IngredientsField) (needles : List String) : Bool :=
  match v with
  | .listVal l =>
      if l.isEmpty then false
      else l.any fun ing =>
        if ing = "" then false
        else needles.any fun needle => containsSubstr needle (normalizeIng ing)
  | _ => false

/-- `filter_recipes_by_allergies` (endpoints.py:721-772). -/
def filterRecipesByAllergies (recipes : List Recipe) (allergies : List String) :
    List Recipe :=
  if allergies.isEmpty then recipes
  else recipes.filter fun r =>
    !rowContainsAny r.ingredients (allergies.map normalizeIng)

/-- The `RESTRICTED_INGREDIENTS` table (endpoints.py:797-806). -/
def RESTRICTED_INGREDIENTS : List (String × List String) :=
  [("vegetarian", ["beef", "pork", "chicken", "fish", "meat", "turkey", "lamb",
      "veal", "duck", "bacon", "ham", "sausage", "seafood", "shrimp", "salmon",
      "tuna"]),
   ("vegan", ["beef", "pork", "chicken", "fish", "meat", "turkey", "lamb",
      "veal", "duck", "bacon", "ham", "sausage", "dairy", "milk", "cheese",
      "egg", "butter", "cream", "yogurt", "whey", "casein", "honey", "gelatin",
      "seafood", "shrimp", "salmon", "tuna"]),
   ("gluten-free", ["wheat", "flour", "bread", "pasta", "gluten", "barley",
      "rye", "oat", "cereal", "couscous", "semolina"]),
   ("dairy-free", ["milk", "cheese", "butter", "cream", "yogurt", "dairy",
      "whey", "casein", "lactose"]),
   ("low-sugar", []),
   ("high-protein", [])]

/-- Forbidden-ingredient collection for a list of normalized restrictions
(endpoints.py:808-813).  The source accumulates a Python set; a list with
possible duplicates has the same membership and emptiness. -/
def forbiddenFor (restrictionsNorm : List String) : List String :=
  restrictionsNorm.foldl
    (fun acc r => acc ++ (RESTRICTED_INGREDIENTS.lookup r).getD []) []

/-- `filter_recipes_by_dietary_restrictions` (endpoints.py:775-851). -/
def filterRecipesByDietaryRestrictions (recipes : List Recipe)
    (restrictions : List String) : List Recipe :=
  if restrictions.isEmpty then recipes
  else if (forbiddenFor (restrictions.map normalizeIng)).isEmpty then recipes
  else recipes.filter fun r =>
    !rowContainsAny r.ingredients (forbiddenFor (restrictions.map normalizeIng))

/-- `filter_recipes_by_disliked_ingredients` (endpoints.py:932-983). -/
def filterRecipesByDisliked (recipes : List Recipe)
    (disliked : List String) : List Recipe :=
  if disliked.isEmpty then recipes
  else recipes.filter fun r =>
    !rowContainsAny r.ingredients (disliked.map normalizeIng)

/-- One `isna-or-within-upper-bound` dataframe filter of
`filter_recipes_by_nutrition`: missing nutrition passes. -/
def passesUpper (v : Option ℚ) (bound : Option ℚ) : Bool :=
  match bound with
  | none => true
  | some b => match v with
    | none => true
    | some x => decide (x ≤ b)

/-- The `isna-or-above-lower-bound` filter for `min_protein`. -/
def passesLower (v : Option ℚ) (bound : Option ℚ) : Bool :=
  match bound with
  | none => true
  | some b => match v with
    | none => true
    | some x => decide (b ≤ x)

/-- `filter_recipes_by_nutrition` (endpoints.py:854-929): the early return
tests Python truthiness of all four bounds; each individual filter then
tests `is not None`. -/
def filterRecipesByNutrition (recipes : List Recipe)
    (max_calories min_protein max_carbs max_fat : Option ℚ) : List Recipe :=
  if !(optTruthy max_calories || optTruthy min_protein ||
       optTruthy max_carbs || optTruthy max_fat) then recipes
  else
    (((recipes.filter fun r => passesUpper r.calories max_calories).filter
        fun r => passesLower r.protein min_protein).filter
      fun r => passesUpper r.carbohydrates max_carbs).filter
      fun r => passesUpper r.total_fat max_fat

/-! `apply_user_profile_filters` (endpoints.py:986-1089): the five stages in
their fixed order, each applied only when the corresponding profile field is
truthy.  No stage is ever skipped for emptying the candidate set. -/

/-- Stage 1/5 of `apply_user_profile_filters` (endpoints.py:1018-1024). -/
def profAllergyStage (p : UserProfile) (rs : List Recipe) : List Recipe :=
  if p.allergies.isEmpty then rs else filterRecipesByAllergies rs p.allergies

/-- Stage 2/5 (endpoints.py:1026-1032). -/
def profDietaryStage (p : UserProfile) (rs : List Recipe) : List Recipe :=
  if p.dietary_restrictions.isEmpty then rs
  else filterRecipesByDietaryRestrictions rs p.dietary_restrictions

/-- Stage 3/5 (endpoints.py:1034-1053): applied when any of the four bounds
is truthy. -/
def profNutritionStage (p : UserProfile) (rs : List Recipe) : List Recipe :=
  if optTruthy p.max_calories || optTruthy p.min_protein ||
     optTruthy p.max_carbs || optTruthy p.max_fat then
    filterRecipesByNutrition rs p.max_calories p.min_protein
      p.max_carbs p.max_fat
  else rs

/-- Stage 4/5 (endpoints.py:1055-1061). -/
def profDislikedStage (p : UserProfile) (rs : List Recipe) : List Recipe :=
  if p.disliked_ingredients.isEmpty then rs
  else filterRecipesByDisliked rs p.disliked_ingredients

/-- Stage 5/5 (endpoints.py:1063-1075): profile-level max prep time;
missing prep time passes. -/
def profPrepTimeStage (p : UserProfile) (rs : List Recipe) : List Recipe :=
  match p.max_prep_time with
  | some m =>
      if m = 0 then rs
      else rs.filter fun r =>
        match r.prep_time with
        | none => true
        | some t => decide (t ≤ m)
  | none => rs

/-- `apply_user_profile_filters` (endpoints.py:986-1089). -/
def applyUserProfileFilters (recipes : List Recipe) (p : UserProfile) :
    List Recipe :=
  profPrepTimeStage p (profDislikedStage p (profNutritionStage p
    (profDietaryStage p (profAllergyStage p recipes))))

/-! ## GNN-path allergy post-filter (endpoints.py:644-694)

After GNN scoring, `recommend` drops recipes containing an allergen —
but if that leaves nothing it returns the unfiltered list
("All recipes filtered out by allergies, returning top GNN recommendations
anyway"). -/

/-- The model path's inline ingredient parse (endpoints.py:663-672):
strings go through `ast.literal_eval`, anything that is not a list ends as
`[]`. -/
def parsedIngredients : IngredientsField → List String
  | .listVal l => l
  | .strVal _ (some l) => l
  | _ => []

/-- The model path's allergen test (endpoints.py:674-681); note
`str(ing).lower()` without `.strip()` on the ingredient side. -/
def gnnRecipeHasAllergen (r : Recipe) (allergies : List String) : Bool :=
  (parsedIngredients r.ingredients).any fun ing =>
    allergies.any fun a => containsSubstr (normalizeIng a) (pyLower ing)

/-- Allergy post-filter of the GNN path with its back-off
(endpoints.py:652-692).  `candidates` stands for the scored GNN
recommendations (each present in the recipe table; candidates absent from
the table are dropped earlier and do not matter here). -/
def gnnAllergyBackoff (candidates : List Recipe) (allergies : List String) :
    List Recipe :=
  if allergies.isEmpty then candidates
  else
    let filtered := candidates.filter fun r => !gnnRecipeHasAllergen r allergies
    if filtered.isEmpty then candidates else filtered

/-! ## Fallback recommender (endpoints.py:1092-1439)

`_get_fallback_recommendations`, stage by stage: profile filters with the
"relax everything on empty" reload, the available-ingredient match filter,
the request `max_time` filter, the heuristic score, sorting and the top-k
response. -/

/-- Normalized available-ingredient set (endpoints.py:1206-1212):
`{ing.lower().strip() for ing in available_ingredients if ... ing.strip()}`. -/
def availSet (avail : List String) : Finset String :=
  ((avail.filter fun s => !(pyStrip s).data.isEmpty).map normalizeIng).toFinset

/-- The ingredient list `calculate_ingredient_match` works on
(endpoints.py:1219-1251): lists are used as-is, strings are
`ast.literal_eval`-parsed, falling back to a comma split, `None`/`NaN`
yield no ingredients. -/
def fallbackParsedIngredients : IngredientsField → List String
  | .missing => []
  | .listVal l => l
  | .strVal raw parsed =>
      let v := pyStrip raw
      if v.data.isEmpty then []
      else match parsed with
        | some l => l
        | none => ((pySplitComma v).map pyStrip).filter fun s => !s.data.isEmpty

/-- Keys of `recipe_ings_normalized` (endpoints.py:1254-1260): the recipe's
ingredients, normalized, with empty results skipped. -/
def recipeNormSet (ings : List String) : Finset String :=
  ((ings.map normalizeIng).filter fun s => !s.data.isEmpty).toFinset

/-- The tuple returned by `calculate_ingredient_match`
(endpoints.py:1214-1275).  The source also keeps the original spelling of
matched/missing ingredients (through the `recipe_ings_normalized` dict, last
occurrence winning) for display inside explanation strings; here the
normalized names are kept — no checked property depends on the recovered
spelling. -/
structure MatchData where
  matched : ℕ
  total : ℕ
  mratio : ℚ
  usedCount : ℕ
  missingNorm : List String
  matchedNorm : List String
deriving DecidableEq

def emptyMatch : MatchData := ⟨0, 0, 0, 0, [], []⟩

/-- The recipe's normalized ingredients as a duplicate-free list (the
iteration order of the Python sets `matched_normalized` /
`missing_normalized` is arbitrary; a deterministic first-occurrence order
stands in for it). -/
def recipeNormList (ings : List String) : List String :=
  (((ings.map normalizeIng).filter fun s => !s.data.isEmpty)).dedup

def calculateIngredientMatch (aset : Finset String) (v : IngredientsField) :
    MatchData :=
  if (fallbackParsedIngredients v).isEmpty then emptyMatch
  else
    ⟨(aset ∩ recipeNormSet (fallbackParsedIngredients v)).card,
     (recipeNormSet (fallbackParsedIngredients v)).card,
     if 0 < (recipeNormSet (fallbackParsedIngredients v)).card then
       ((aset ∩ recipeNormSet (fallbackParsedIngredients v)).card : ℚ) /
         ((recipeNormSet (fallbackParsedIngredients v)).card : ℚ)
     else 0,
     (aset ∩ recipeNormSet (fallbackParsedIngredients v)).card,
     (recipeNormList (fallbackParsedIngredients v)).filter fun s => decide (s ∉ aset),
     (recipeNormList (fallbackParsedIngredients v)).filter fun s => decide (s ∈ aset)⟩

/-- The `has_all_ingredients` column (endpoints.py:1285-1290). -/
def hasAllIngredients (md : MatchData) : Bool :=
  decide (md.matched = md.total) && decide (0 < md.total) &&
  decide (0 < md.matched) && decide (md.missingNorm.length = 0)

/-- A candidate row: a recipe together with its match columns. -/
structure Cand where
  recipe : Recipe
  md : MatchData
deriving DecidableEq

/-- Step 4 of the fallback (endpoints.py:1204-1305): with available
ingredients, compute the match columns and keep only recipes with at least
one matched ingredient and a match ratio ≥ 0.2; without, the match columns
are zeroed and nothing is dropped. -/
def ingredientFilterStage (avail : List String) (rs : List Recipe) :
    List Cand :=
  if avail.isEmpty then rs.map fun r => ⟨r, emptyMatch⟩
  else
    let aset := availSet avail
    (rs.map fun r => (⟨r, calculateIngredientMatch aset r.ingredients⟩ : Cand)).filter
      fun c => decide (0 < c.md.matched) && decide ((1/5 : ℚ) ≤ c.md.mratio)

/-- Step 5 (endpoints.py:1310-1311): the request-level `max_time` filter.
Python truthiness skips it for `None` and `0`; the pandas comparison drops
rows with missing prep time. -/
def timeFilterStage (max_time : Option ℚ) (cs : List Cand) : List Cand :=
  match max_time with
  | none => cs
  | some t =>
      if t = 0 then cs
      else cs.filter fun c =>
        match c.recipe.prep_time with
        | some p => decide (p ≤ t)
        | none => false

/-- `recipe_scores.get(recipe_id, 0.0)` (endpoints.py:1317): the mean
historical rating of a recipe, defaulting to 0. -/
def rawScore (ratings : List (ℕ × ℚ)) (r : Recipe) : ℚ :=
  (ratings.lookup r.recipe_id).getD 0

/-- `recipes_df["raw_score"].max()` over the candidate set, with `0` for an
empty set (the source guards the empty case separately; and an all-negative
maximum falls into the same `≤ 0` default below). -/
def maxRawScore (ratings : List (ℕ × ℚ)) (cs : List Cand) : ℚ :=
  (cs.map fun c => rawScore ratings c.recipe).foldr max 0

/-- The popularity denominator (endpoints.py:1320-1322): the maximum mean
rating in the candidate set, defaulting to `5.0` when that maximum is not
positive. -/
def popularityDenom (ratings : List (ℕ × ℚ)) (cs : List Cand) : ℚ :=
  if maxRawScore ratings cs ≤ 0 then 5 else maxRawScore ratings cs

/-- Step 6 (endpoints.py:1316-1348): the heuristic score of one candidate.
Weights `0.65`, `0.25`, `0.10` and the `0.20` completeness bonus appear as
`13/20`, `1/4`, `1/10`, `1/5`; `clip(0, 1.0)` is `max 0 (min 1 ·)`. -/
def candScore (availNonempty : Bool) (totalAvail : ℕ) (denom : ℚ)
    (ratings : List (ℕ × ℚ)) (c : Cand) : ℚ :=
  if availNonempty then
    max 0 (min 1
      ((13/20) * (if 0 < totalAvail then (c.md.usedCount : ℚ) / (totalAvail : ℚ) else 0) +
       (1/4) * c.md.mratio +
       (1/10) * (rawScore ratings c.recipe / denom) +
       (if hasAllIngredients c.md then (1/5 : ℚ) else 0)))
  else rawScore ratings c.recipe / denom

/-- `recipes_df.sort_values("score", ascending=False)` (endpoints.py:1355).
The source's sort is pandas quicksort; order among equal scores is
implementation-defined (spec §4.4), modelled by a deterministic insertion
sort. -/
def scorePairRel (a b : Cand × ℚ) : Prop := b.2 ≤ a.2

instance : DecidableRel scorePairRel := fun a b =>
  inferInstanceAs (Decidable (b.2 ≤ a.2))

def sortByScoreDesc (l : List (Cand × ℚ)) : List (Cand × ℚ) :=
  List.insertionSort scorePairRel l

/-- The explanation string of one returned row (endpoints.py:1377-1425). -/
def explainCand (c : Cand) : String :=
  let name := c.recipe.name
  if 0 < c.md.usedCount then
    let used := c.md.usedCount
    let total := c.md.total
    let matchPct := (Int.floor (c.md.mratio * 100)).toNat
    let missingList := c.md.missingNorm
    let mc := if missingList.length ≠ total - used then total - used
              else missingList.length
    let hasAll := hasAllIngredients c.md && decide (mc = 0) &&
                  decide (used = total) && decide (0 < total)
    if hasAll then
      "✅ Vous avez TOUS les ingrédients nécessaires (" ++ toString used ++
        "/" ++ toString total ++ ") : " ++ name
    else if 0 < mc then
      if 0 < missingList.length then
        let missingDisplay := String.intercalate ", " (missingList.take 3) ++
          (if 3 < missingList.length then
            " (+" ++ toString (missingList.length - 3) ++ " autres)" else "")
        "⚠️ Il manque " ++ toString mc ++ " ingrédient(s) (" ++ toString used ++
          "/" ++ toString total ++ " disponibles) : " ++ name ++
          ". Manquent : " ++ missingDisplay
      else
        "⚠️ Il manque " ++ toString mc ++ " ingrédient(s) (" ++ toString used ++
          "/" ++ toString total ++ " disponibles, " ++ toString matchPct ++
          "%) : " ++ name
    else
      "Utilise " ++ toString used ++ "/" ++ toString total ++ " ingrédients (" ++
        toString matchPct ++ "% de la recette) : " ++ name
  else "Recette populaire : " ++ name

structure RecommendationRequest where
  available_ingredients : List String
  max_time : Option ℚ
  top_k : ℕ
  use_profile : Bool
deriving DecidableEq

structure RecommendationResponse where
  recipe_ids : List ℕ
  scores : List ℚ
  explanations : List String
deriving DecidableEq

/-- Step 3's relaxation (endpoints.py:1161-1184): apply the whole profile
pipeline; if that empties the set, reload the full unfiltered recipe table
(the reload re-queries the same `Recipe` table, so it returns the input
list). -/
def profileRelaxStage (allRecipes : List Recipe) (p : UserProfile) :
    List Recipe :=
  if (applyUserProfileFilters allRecipes p).isEmpty then allRecipes
  else applyUserProfileFilters allRecipes p

/-- Step 3 dispatch (endpoints.py:1154-1201): profile filters run only when
the request allows profiles and one is found. -/
def profileStage (allRecipes : List Recipe) (profile : Option UserProfile)
    (useProfile : Bool) : List Recipe :=
  if useProfile then
    match profile with
    | some p => profileRelaxStage allRecipes p
    | none => allRecipes
  else allRecipes

/-- The fallback candidate set after profile, ingredient and time filters. -/
def fallbackCandidates (allRecipes : List Recipe) (profile : Option UserProfile)
    (req : RecommendationRequest) : List Cand :=
  timeFilterStage req.max_time
    (ingredientFilterStage req.available_ingredients
      (profileStage allRecipes profile req.use_profile))

/-- Each candidate with its heuristic score (endpoints.py:1316-1350). -/
def fallbackScored (allRecipes : List Recipe) (profile : Option UserProfile)
    (ratings : List (ℕ × ℚ)) (req : RecommendationRequest) :
    List (Cand × ℚ) :=
  let cs := fallbackCandidates allRecipes profile req
  cs.map fun c =>
    (c, candScore (!req.available_ingredients.isEmpty)
          req.available_ingredients.length (popularityDenom ratings cs)
          ratings c)

/-- Step 7's sort and `head(min(top_k, len))` (endpoints.py:1355-1358). -/
def fallbackTop (allRecipes : List Recipe) (profile : Option UserProfile)
    (ratings : List (ℕ × ℚ)) (req : RecommendationRequest) :
    List (Cand × ℚ) :=
  let sorted := sortByScoreDesc (fallbackScored allRecipes profile ratings req)
  sorted.take (min req.top_k sorted.length)

/-- `_get_fallback_recommendations` (endpoints.py:1092-1439).  `allRecipes`
is the recipe table, `ratings` the per-recipe mean review rating.  The NaN
clean-up of step 7 is the identity on rationals. -/
def fallbackRecommend (allRecipes : List Recipe) (profile : Option UserProfile)
    (ratings : List (ℕ × ℚ)) (req : RecommendationRequest) :
    RecommendationResponse :=
  if allRecipes.isEmpty then
    ⟨[], [], ["Aucune recette trouvée dans la base."]⟩
  else
    ⟨(fallbackTop allRecipes profile ratings req).map fun x => x.1.recipe.recipe_id,
     (fallbackTop allRecipes profile ratings req).map fun x => x.2,
     (fallbackTop allRecipes profile ratings req).map fun x => explainCand x.1⟩

/-! ## GNN-path response assembly (endpoints.py:629-714)

The model path's tail: select the top-k score indices, map them through
`idx_to_recipe`, run the profile/allergy post-filter with its back-off
(refining `gnnAllergyBackoff` above by tracking table presence and scores),
and build explanations — appending one only for ids found in the recipe
table.  When this yields zero ids the code dispatches to
`_get_fallback_recommendations` (endpoints.py:705-707), whose response is
`fallbackRecommend`. -/

/-- `recipe_data[recipe_data["recipe_id"] == recipe_id]` followed by
`.iloc[0]`: the first table row with the given id, when any. -/
def lookupRecipe (table : List Recipe) (rid : ℕ) : Option Recipe :=
  table.find? fun r => r.recipe_id == rid

/-- The per-candidate keep decision of the profile post-filter
(endpoints.py:656-685): ids absent from the recipe table are dropped;
with a truthy allergy list, allergen-containing recipes are dropped. -/
def gnnKeepPair (table : List Recipe) (p : UserProfile) (pr : ℕ × ℚ) : Bool :=
  match lookupRecipe table pr.1 with
  | some r =>
      !(if p.allergies.isEmpty then false else gnnRecipeHasAllergen r p.allergies)
  | none => false

/-- The profile post-filter with its back-off (endpoints.py:645-694): runs
only when the request allows profiles and one is found; if it keeps nothing
the original (id, score) pairs are restored. -/
def gnnProfileFilter (table : List Recipe) (profile : Option UserProfile)
    (useProfile : Bool) (pairs : List (ℕ × ℚ)) : List (ℕ × ℚ) :=
  if useProfile then
    match profile with
    | some p =>
        if (pairs.filter (gnnKeepPair table p)).isEmpty then pairs
        else pairs.filter (gnnKeepPair table p)
    | none => pairs
  else pairs

/-- `recipe_ids = [idx_to_recipe[idx] for idx in top_recipe_indices]` and
`final_scores = scores[top_recipe_indices]` (endpoints.py:638-640), as
(id, score) pairs. -/
def gnnPairs (idxToRecipe : List ℕ) (scores : List ℚ) (topIdx : List ℕ) :
    List (ℕ × ℚ) :=
  topIdx.map fun i => (idxToRecipe.getD i 0, scores.getD i 0)

/-- Explanation generation (endpoints.py:696-703): one string per id found
in the recipe table — ids absent from the table get none. -/
def gnnExplanations (table : List Recipe) (ids : List ℕ) : List String :=
  ids.filterMap fun rid =>
    (lookupRecipe table rid).map fun r => "Recommended: " ++ r.name

/-- The model path's response for a given index selection
(endpoints.py:638-714). -/
def gnnAssemble (table : List Recipe) (profile : Option UserProfile)
    (useProfile : Bool) (idxToRecipe : List ℕ) (scores : List ℚ)
    (topIdx : List ℕ) : RecommendationResponse :=
  ⟨(gnnProfileFilter table profile useProfile
      (gnnPairs idxToRecipe scores topIdx)).map Prod.fst,
   (gnnProfileFilter table profile useProfile
      (gnnPairs idxToRecipe scores topIdx)).map Prod.snd,
   gnnExplanations table
     ((gnnProfileFilter table profile useProfile
        (gnnPairs idxToRecipe scores topIdx)).map Prod.fst)⟩

/-! ## Spec-side definitions for the corrected claims

These definitions follow the specification's words (not the source) and are
compared against the embedded code. -/

/-- Written from the spec's words (§4.6): the constraint pipeline with
per-stage back-off — a stage that would eliminate every remaining candidate
is skipped, keeping the other stages' effects. -/
def backoffStep (cur : List Recipe) (f : List Recipe → List Recipe) :
    List Recipe :=
  let nxt := f cur
  if nxt.isEmpty then cur else nxt

/-- Written from the spec's words: `apply_user_profile_filters` as the claim
describes it, every stage individually relaxed on empty. -/
def specBackoffPipeline (recipes : List Recipe) (p : UserProfile) :
    List Recipe :=
  backoffStep
    (backoffStep
      (backoffStep
        (backoffStep
          (backoffStep recipes (profAllergyStage p))
          (profDietaryStage p))
        (profNutritionStage p))
      (profDislikedStage p))
    (profPrepTimeStage p)

/-- Written from the spec's words (§4.6): normalized popularity — the mean
historical rating over the maximum such mean in the candidate set, the
denominator defaulting to the fixed positive constant 5 when no positive
mean exists. -/
def specNormalizedPopularity (raw maxMean : ℚ) : ℚ :=
  raw / (if maxMean ≤ 0 then 5 else maxMean)

/-- Written from the spec's words (§4.6): the fallback scoring formula under
supplied available ingredients, with the completeness bonus granted exactly
when the (non-empty) recipe-ingredient set is contained in the available
set, clamped to `[0, 1]`. -/
def specFallbackScore (aset rset : Finset String) (totalAvail : ℕ)
    (pop : ℚ) : ℚ :=
  min 1 (max 0
    ((13/20) * (((aset ∩ rset).card : ℚ) / (totalAvail : ℚ)) +
     (1/4) * (((aset ∩ rset).card : ℚ) / (rset.card : ℚ)) +
     (1/10) * pop +
     (if rset ≠ ∅ ∧ rset ⊆ aset then (1/5 : ℚ) else 0)))

/-- Written from the spec's words (§4.6): the match ratio — matched
ingredients over total recipe ingredients (`0` when the recipe set is
empty, which in `ℚ` is division by zero). -/
def specMatchRatio (aset rset : Finset String) : ℚ :=
  ((aset ∩ rset).card : ℚ) / (rset.card : ℚ)

/-! ## Graph builder (src/data/graph_builder.py) -/

/-- One row of the interactions table, already carrying the dense indices
produced by the id↔index mappings. -/
structure Interaction where
  user_idx : ℕ
  recipe_idx : ℕ
deriving DecidableEq

/-- One row of the recipes table used for recipe–ingredient edges. -/
structure RecipeRow where
  recipe_idx : ℕ
  ingredients : IngredientsField
deriving DecidableEq

/-- `build_user_recipe_graph` (graph_builder.py:33-72): user endpoints are
the raw user indices; recipe endpoints are offset by `n_users`. -/
def buildUserRecipeEdges (inters : List Interaction) (n_users : ℕ) :
    List (ℕ × ℕ) :=
  inters.map fun i => (i.user_idx, i.recipe_idx + n_users)

/-- The global ingredient vocabulary (graph_builder.py:89-96): all
normalized ingredient strings over rows whose `ingredients_list` is a real
list, deduplicated and sorted. -/
def ingredientVocab (recipes : List RecipeRow) : List String :=
  List.insertionSort (· ≤ ·)
    ((recipes.foldr
      (fun r acc =>
        match r.ingredients with
        | .listVal l => l.map normalizeIng ++ acc
        | _ => acc) []).dedup)

/-- Recipe–ingredient edges of one recipe row (graph_builder.py:110-120):
recipe endpoints offset by `n_users`, ingredient endpoints by
`n_users + n_recipes`. -/
def rowIngredientEdges (vocab : List String) (n_users n_recipes : ℕ)
    (r : RecipeRow) : List (ℕ × ℕ) :=
  match r.ingredients with
  | .listVal l =>
      l.filterMap fun ing =>
        let ning := normalizeIng ing
        if ning ∈ vocab then
          some (r.recipe_idx + n_users, vocab.indexOf ning + (n_users + n_recipes))
        else none
  | _ => []

/-- `build_recipe_ingredient_graph` (graph_builder.py:74-132). -/
def buildRecipeIngredientEdges (recipes : List RecipeRow)
    (n_users n_recipes : ℕ) : List (ℕ × ℕ) :=
  let vocab := ingredientVocab recipes
  recipes.foldr (fun r acc => rowIngredientEdges vocab n_users n_recipes r ++ acc) []

/-! ## Trainer checkpoint / early-stopping state machine
(src/training/train.py)

`Trainer.__init__` sets `best_val_score = 0.0`, `patience_counter = 0`
(train.py:149-152); each epoch of `Trainer.train` (train.py:305-325)
checkpoints when `val_loss < best_val_score` and otherwise increments the
patience counter, breaking at `early_stopping_patience`. -/

structure TrainState where
  best_val_score : ℚ
  patience_counter : ℕ
  saved : List (ℕ × ℚ)
  stopped : Bool
deriving DecidableEq

/-- One epoch's tail (train.py:305-325).  `saved` records every
`torch.save` call as an (epoch, val_loss) pair. -/
def trainStep (patience : ℕ) (st : TrainState) (epoch : ℕ) (val_loss : ℚ) :
    TrainState :=
  if st.stopped then st
  else if val_loss < st.best_val_score then
    { best_val_score := val_loss, patience_counter := 0,
      saved := st.saved ++ [(epoch, val_loss)], stopped := false }
  else
    let pc := st.patience_counter + 1
    { st with patience_counter := pc, stopped := decide (patience ≤ pc) }

def runTrainingAux (patience : ℕ) : TrainState → ℕ → List ℚ → TrainState
  | st, _, [] => st
  | st, epoch, v :: rest =>
      runTrainingAux patience (trainStep patience st epoch v) (epoch + 1) rest

/-- `Trainer.train` restricted to its checkpoint / early-stop state, run
over the sequence of per-epoch validation losses.  The initial state is the
source's `best_val_score = 0.0`. -/
def runTraining (patience : ℕ) (vals : List ℚ) : TrainState :=
  runTrainingAux patience ⟨0, 0, [], false⟩ 0 vals

/-! ## Evaluator (src/training/evaluation.py)

`np.argsort(predictions)[::-1]` ranks items by descending predicted score;
order among ties is implementation-defined (numpy quicksort, spec §4.4),
modelled by a deterministic insertion sort on indices. -/

/-- Descending comparison of two item indices by predicted score. -/
def rankRel (preds : List ℚ) (a b : ℕ) : Prop :=
  preds.getD b 0 ≤ preds.getD a 0

instance rankRelDecidable (preds : List ℚ) : DecidableRel (rankRel preds) :=
  fun a b => inferInstanceAs (Decidable (preds.getD b 0 ≤ preds.getD a 0))

instance rankRelTotal (preds : List ℚ) : IsTotal ℕ (rankRel preds) :=
  ⟨fun _ _ => le_total _ _⟩

instance rankRelTrans (preds : List ℚ) : IsTrans ℕ (rankRel preds) :=
  ⟨fun _ _ _ h1 h2 => le_trans h2 h1⟩

/-- `np.argsort(predictions)[::-1]`. -/
def argsortDesc (preds : List ℚ) : List ℕ :=
  List.insertionSort (rankRel preds) (List.range preds.length)

/-- `np.argsort(scores)[::-1][:top_k]` (endpoints.py:632-636), the model
path's base index selection when no re-ranking applies. -/
def gnnTopIndices (scores : List ℚ) (top_k : ℕ) : List ℕ :=
  (argsortDesc scores).take top_k

/-- The model path's response on its base branch (endpoints.py:629-714).
The re-ranker branch (endpoints.py:582-630) feeds a different
duplicate-free index selection of length ≤ `top_k` into the same assembly. -/
def gnnRecommend (table : List Recipe) (profile : Option UserProfile)
    (useProfile : Bool) (idxToRecipe : List ℕ) (scores : List ℚ)
    (top_k : ℕ) : RecommendationResponse :=
  gnnAssemble table profile useProfile idxToRecipe scores
    (gnnTopIndices scores top_k)

/-- Descending comparison of two relevance values. -/
def descRel (a b : ℚ) : Prop := b ≤ a

instance : DecidableRel descRel := fun a b => inferInstanceAs (Decidable (b ≤ a))

instance : IsTotal ℚ descRel := ⟨fun _ _ => le_total _ _⟩

instance : IsTrans ℚ descRel := ⟨fun _ _ _ h1 h2 => le_trans h2 h1⟩

/-- `np.sort(ground_truth)[::-1]`. -/
def sortValuesDesc (l : List ℚ) : List ℚ := List.insertionSort descRel l

/-- `Evaluator.dcg` (evaluation.py:29-46): gains `2**score - 1`, discounts
`log2(position + 2)`. -/
noncomputable def dcgAux : List ℚ → ℕ → ℝ
  | [], _ => 0
  | s :: rest, idx =>
      ((2 : ℝ) ^ ((s : ℝ)) - 1) / Real.logb 2 ((idx : ℝ) + 2) + dcgAux rest (idx + 1)

noncomputable def dcg (scores : List ℚ) : ℝ := dcgAux scores 0

/-- `Evaluator.ndcg_at_k` (evaluation.py:48-82): DCG of the top-k
predicted relevances over the ideal DCG, `0` when the latter vanishes. -/
noncomputable def ndcgAtK (preds gt : List ℚ) (k : ℕ) : ℝ :=
  if dcg ((sortValuesDesc gt).take k) = 0 then 0
  else dcg (((argsortDesc preds).take k).map fun i => gt.getD i 0) /
    dcg ((sortValuesDesc gt).take k)

/-- `Evaluator.recall_at_k` (evaluation.py:84-113): relevant items found in
the top-k over all relevant items, `0` when none are relevant. -/
def recallAtK (preds gt : List ℚ) (k : ℕ) : ℚ :=
  if gt.countP (fun s => decide (0 < s)) = 0 then 0
  else ((((argsortDesc preds).take k).filter fun i =>
      decide (0 < gt.getD i 0)).length : ℚ) /
    ((gt.countP fun s => decide (0 < s)) : ℚ)

/-- The rank loop of `Evaluator.mrr` (evaluation.py:130-138). -/
def mrrAux (gt : List ℚ) : List ℕ → ℕ → ℚ
  | [], _ => 0
  | i :: rest, rank =>
      if 0 < gt.getD i 0 then 1 / (rank : ℚ) else mrrAux gt rest (rank + 1)

/-- `Evaluator.mrr` (evaluation.py:115-138). -/
def mrr (preds gt : List ℚ) : ℚ := mrrAux gt (argsortDesc preds) 1

/-! ## Contextual reranker context encoding (src/models/reranker.py:60-114) -/

/-- The normalized ingredient sets of `encode_context`
(reranker.py:84-85); unlike the fallback scorer, empty normalized strings
are kept. -/
def ctxSet (l : List String) : Finset String := (l.map normalizeIng).toFinset

/-- The three time features (reranker.py:93-99). -/
def ctxTimeFeats (prep_time : ℚ) (max_time : Option ℚ) : List ℚ :=
  match max_time with
  | some mt =>
      [if 0 < mt then prep_time / mt else 1,
       if prep_time ≤ mt then 1 else 0,
       prep_time / 60]
  | none => [0, 1, prep_time / 60]

/-- The dietary-preference placeholder features (reranker.py:101-107). -/
def ctxDietFeats (dietary_preferences : List String) : List ℚ :=
  if dietary_preferences.isEmpty then List.replicate 4 0
  else List.replicate dietary_preferences.length 1

/-- The raw feature list of `encode_context` before padding / truncation
(reranker.py:81-107): ingredient coverage, missing ratio, raw overlap ratio,
the time features, the dietary placeholders. -/
def ctxRawFeatures (available_ingredients recipe_ingredients : List String)
    (prep_time : ℚ) (max_time : Option ℚ) (dietary_preferences : List String) :
    List ℚ :=
  [if ctxSet recipe_ingredients = ∅ then 0
   else ((ctxSet available_ingredients ∩ ctxSet recipe_ingredients).card : ℚ) /
     ((ctxSet recipe_ingredients).card : ℚ),
   ((ctxSet recipe_ingredients \ ctxSet available_ingredients).card : ℚ) /
     ((max (ctxSet recipe_ingredients).card 1 : ℕ) : ℚ),
   ((ctxSet available_ingredients ∩ ctxSet recipe_ingredients).card : ℚ) /
     ((max (ctxSet available_ingredients).card 1 : ℕ) : ℚ)] ++
  ctxTimeFeats prep_time max_time ++ ctxDietFeats dietary_preferences

/-- `ContextualReranker.encode_context` (reranker.py:60-114) as the list of
entries of the returned tensor: the raw features padded with zeros, then
truncated, to exactly `context_dim` (reranker.py:109-112). -/
def encodeContext (available_ingredients recipe_ingredients : List String)
    (prep_time : ℚ) (max_time : Option ℚ) (dietary_preferences : List String)
    (context_dim : ℕ) : List ℚ :=
  (ctxRawFeatures available_ingredients recipe_ingredients prep_time max_time
      dietary_preferences ++
    List.replicate (context_dim -
      (ctxRawFeatures available_ingredients recipe_ingredients prep_time
        max_time dietary_preferences).length) 0).take context_dim

/-- Written from the spec's words (§4.5): coverage is the intersection over
the recipe-ingredient set, `0` for an ingredient-less recipe. -/
def specCoverage (aset rset : Finset String) : ℚ :=
  if rset = ∅ then 0 else ((aset ∩ rset).card : ℚ) / (rset.card : ℚ)

/-- Written from the spec's words (§4.5): missing-ratio is the recipe-only
count over the recipe-ingredient set size (in `ℚ`, the empty-recipe case is
division by zero, which is `0` — the same value the code's `max(·, 1)`
denominator produces). -/
def specMissingRatio (aset rset : Finset String) : ℚ :=
  ((rset \ aset).card : ℚ) / (rset.card : ℚ)

/-- Written from the spec's words (§4.5): raw-overlap-ratio is the
intersection over the available set, `0` when it is empty. -/
def specOverlapRatio (aset rset : Finset String) : ℚ :=
  if aset = ∅ then 0 else ((aset ∩ rset).card : ℚ) / (aset.card : ℚ)

/-! ## Concrete inputs used by witnesses and counterexamples -/

def c10Recipe : Recipe :=
  ⟨7, "mystery stew", .strVal "chicken, rice" none, none, none, none, none, none⟩

def c1Allergenic : Recipe :=
  ⟨1, "peanut cake", .listVal ["peanut sauce"], none, none, none, none, none⟩

def c1Safe : Recipe :=
  ⟨2, "fruit salad", .listVal ["apple"], none, none, none, none, none⟩

def c4Satay : Recipe :=
  ⟨1, "satay", .listVal ["peanut"], none, some 100, none, none, none⟩

def c4RiceBowl : Recipe :=
  ⟨2, "rice bowl", .listVal ["rice"], none, some 500, none, none, none⟩

def c4Profile : UserProfile :=
  ⟨["peanut"], [], some 300, none, none, none, [], none⟩

def w3Recipe : Recipe :=
  ⟨1, "omelette", .listVal ["Egg"], none, none, none, none, none⟩

def w3Req : RecommendationRequest := ⟨["egg"], none, 5, false⟩

def w3Cand : Cand :=
  ⟨w3Recipe, calculateIngredientMatch (availSet w3Req.available_ingredients)
    w3Recipe.ingredients⟩

def w3Score : ℚ :=
  candScore (!w3Req.available_ingredients.isEmpty)
    w3Req.available_ingredients.length
    (popularityDenom [] (fallbackCandidates [w3Recipe] none w3Req)) [] w3Cand

/-! ## Shared lemmas -/

/-- A non-list / empty ingredient value never matches any needle. -/
theorem rowContainsAny_nonlist (v : IngredientsField)
    (h : v = .missing ∨ (∃ raw parsed, v = .strVal raw parsed) ∨ v = .listVal [])
    (needles : List String) : rowContainsAny v needles = false := by
  rcases h with h | ⟨raw, parsed, h⟩ | h <;> subst h <;> rfl

/-- With no needles, the substring predicate never fires. -/
theorem rowContainsAny_nil (v : IngredientsField) :
    rowContainsAny v [] = false := by
  cases v <;> simp [rowContainsAny]

/-! ## C10 -/

/-- C10: a recipe whose `ingredients_list` is missing, empty, or a string
(parsed or not) is treated as containing no forbidden ingredient, so it
passes the allergy, dietary-restriction and disliked-ingredient filters
whatever the user's constraints are. -/
theorem nonlist_rows_pass_substring_filters (r : Recipe) (rs : List Recipe)
    (hr : r ∈ rs)
    (hbad : r.ingredients = .missing ∨
      (∃ raw parsed, r.ingredients = .strVal raw parsed) ∨
      r.ingredients = .listVal [])
    (allergies restrictions disliked : List String) :
    r ∈ filterRecipesByAllergies rs allergies ∧
    r ∈ filterRecipesByDietaryRestrictions rs restrictions ∧
    r ∈ filterRecipesByDisliked rs disliked := by
  have hfa := rowContainsAny_nonlist r.ingredients hbad
  refine ⟨?_, ?_, ?_⟩
  · by_cases h1 : allergies.isEmpty = true
    · simp [filterRecipesByAllergies, h1, hr]
    · simp [filterRecipesByAllergies, h1, List.mem_filter, hfa, hr]
  · by_cases h1 : restrictions.isEmpty = true
    · simp [filterRecipesByDietaryRestrictions, h1, hr]
    · by_cases h2 : (forbiddenFor (restrictions.map normalizeIng)).isEmpty = true
      · simp [filterRecipesByDietaryRestrictions, h1, h2, hr]
      · simp [filterRecipesByDietaryRestrictions, h1, h2, List.mem_filter, hfa, hr]
  · by_cases h1 : disliked.isEmpty = true
    · simp [filterRecipesByDisliked, h1, hr]
    · simp [filterRecipesByDisliked, h1, List.mem_filter, hfa, hr]

/-- Witness for C10: an unparsed-string recipe survives all three filters
even though its raw text contains the allergen, the vegan-forbidden meat and
the disliked ingredient as substrings. -/
theorem nonlist_rows_pass_substring_filters_witness :
    c10Recipe ∈ filterRecipesByAllergies [c10Recipe] ["chicken"] ∧
    c10Recipe ∈ filterRecipesByDietaryRestrictions [c10Recipe] ["vegan"] ∧
    c10Recipe ∈ filterRecipesByDisliked [c10Recipe] ["rice"] :=
  nonlist_rows_pass_substring_filters c10Recipe [c10Recipe]
    (List.mem_singleton.mpr rfl)
    (Or.inr (Or.inl ⟨"chicken, rice", none, rfl⟩)) _ _ _

/-! ## C1 -/

/-- Counterexample to C1 as stated: with allergy list `["peanut"]` and a
single candidate whose only ingredient contains that allergen, the allergy
filter would empty the list, so the back-off returns the unfiltered
candidates and `recommend` serves a recipe containing the allergen. -/
theorem recommend_returns_allergen_on_backoff :
    ∃ r ∈ gnnAllergyBackoff [c1Allergenic] ["peanut"],
      gnnRecipeHasAllergen r ["peanut"] = true := by decide

/-- C1 (amended): whenever at least one candidate passes the allergy test,
everything the GNN path returns is allergen-free; and the fallback path's
`filter_recipes_by_allergies` always produces an allergen-free subset. -/
theorem allergy_filtering_amended (cands : List Recipe) (allergies : List String)
    (hsome : cands.filter (fun r => !gnnRecipeHasAllergen r allergies) ≠ []) :
    (∀ r ∈ gnnAllergyBackoff cands allergies,
        gnnRecipeHasAllergen r allergies = false) ∧
    ∀ (rs : List Recipe) (al : List String) (r : Recipe),
      r ∈ filterRecipesByAllergies rs al →
      rowContainsAny r.ingredients (al.map normalizeIng) = false := by
  constructor
  · intro r hrmem
    by_cases hae : allergies.isEmpty = true
    · rw [List.isEmpty_iff.mp hae]
      simp [gnnRecipeHasAllergen]
    · have hfe : (cands.filter fun x => !gnnRecipeHasAllergen x allergies).isEmpty = false :=
        Bool.eq_false_iff.mpr fun hh => hsome (List.isEmpty_iff.mp hh)
      simp only [gnnAllergyBackoff, hae, hfe, Bool.false_eq_true, if_false] at hrmem
      simpa using (List.mem_filter.mp hrmem).2
  · intro rs al r hmem
    by_cases hae : al.isEmpty = true
    · rw [List.isEmpty_iff.mp hae]
      exact rowContainsAny_nil _
    · simp only [filterRecipesByAllergies, hae, Bool.false_eq_true, if_false] at hmem
      simpa using (List.mem_filter.mp hmem).2

/-- Witness for C1 (amended) at a concrete candidate list with one safe
recipe. -/
theorem allergy_filtering_amended_witness :
    (∀ r ∈ gnnAllergyBackoff [c1Allergenic, c1Safe] ["peanut"],
        gnnRecipeHasAllergen r ["peanut"] = false) ∧
    ∀ (rs : List Recipe) (al : List String) (r : Recipe),
      r ∈ filterRecipesByAllergies rs al →
      rowContainsAny r.ingredients (al.map normalizeIng) = false :=
  allergy_filtering_amended [c1Allergenic, c1Safe] ["peanut"] (by decide)

/-! ## C4 -/

/-- Counterexample to C4 as stated: allergies `["peanut"]` plus
`max_calories = 300` over `[satay (peanut, 100 cal), rice bowl (rice,
500 cal)]`.  The allergy stage keeps only the rice bowl, the nutrition
stage then eliminates it, and the pipeline returns the empty set — whereas
the claimed per-stage back-off (spec-side `specBackoffPipeline`) would skip
only the nutrition stage and keep the rice bowl. -/
theorem profile_pipeline_no_per_stage_backoff :
    applyUserProfileFilters [c4Satay, c4RiceBowl] c4Profile = [] ∧
    specBackoffPipeline [c4Satay, c4RiceBowl] c4Profile = [c4RiceBowl] := by
  decide

/-- C4 (amended): no single stage is ever skipped; instead, when the whole
pipeline empties the candidate set, the fallback caller reloads the complete
unfiltered recipe table, so the candidate set it continues with is non-empty
whenever the table is — at the price of dropping every profile constraint,
allergies included. -/
theorem profile_pipeline_relaxation (allRecipes : List Recipe)
    (p : UserProfile) (h : allRecipes ≠ []) :
    profileRelaxStage allRecipes p ≠ [] ∧
    (applyUserProfileFilters allRecipes p = [] →
      profileRelaxStage allRecipes p = allRecipes) ∧
    (applyUserProfileFilters allRecipes p ≠ [] →
      profileRelaxStage allRecipes p = applyUserProfileFilters allRecipes p) := by
  unfold profileRelaxStage
  by_cases he : (applyUserProfileFilters allRecipes p).isEmpty = true
  · rw [if_pos he]
    exact ⟨h, fun _ => rfl, fun hne => absurd (List.isEmpty_iff.mp he) hne⟩
  · rw [if_neg he]
    refine ⟨fun hc => he (by rw [hc]; rfl), fun hc => absurd hc ?_, fun _ => rfl⟩
    exact fun hc => he (by rw [hc]; rfl)

/-- Witness for C4 (amended) at the counterexample's input. -/
theorem profile_pipeline_relaxation_witness :
    profileRelaxStage [c4Satay, c4RiceBowl] c4Profile ≠ [] ∧
    (applyUserProfileFilters [c4Satay, c4RiceBowl] c4Profile = [] →
      profileRelaxStage [c4Satay, c4RiceBowl] c4Profile = [c4Satay, c4RiceBowl]) ∧
    (applyUserProfileFilters [c4Satay, c4RiceBowl] c4Profile ≠ [] →
      profileRelaxStage [c4Satay, c4RiceBowl] c4Profile =
        applyUserProfileFilters [c4Satay, c4RiceBowl] c4Profile) :=
  profile_pipeline_relaxation [c4Satay, c4RiceBowl] c4Profile (by decide)

/-! ## C5 -/

/-- Once `stopped`, the remaining epochs change nothing (the source's
`break`). -/
theorem runTrainingAux_stopped (patience : ℕ) (st : TrainState)
    (h : st.stopped = true) (epoch : ℕ) (vals : List ℚ) :
    runTrainingAux patience st epoch vals = st := by
  induction vals generalizing epoch with
  | nil => rfl
  | cons v rest ih =>
      unfold runTrainingAux trainStep
      rw [if_pos h]
      exact ih _

/-- Main induction for C5: starting from `best_val_score = 0` with
nonnegative validation losses, nothing is ever saved and the patience
counter grows by one every epoch. -/
theorem runTrainingAux_no_save (patience : ℕ) (vals : List ℚ)
    (hnn : ∀ v ∈ vals, 0 ≤ v) :
    ∀ c : ℕ, c < patience → ∀ epoch : ℕ,
    (runTrainingAux patience ⟨0, c, [], false⟩ epoch vals).saved = [] ∧
    (runTrainingAux patience ⟨0, c, [], false⟩ epoch vals).best_val_score = 0 ∧
    (patience ≤ c + vals.length →
      (runTrainingAux patience ⟨0, c, [], false⟩ epoch vals).stopped = true) := by
  induction vals with
  | nil =>
      intro c hc epoch
      refine ⟨rfl, rfl, fun hle => absurd hle ?_⟩
      simpa using Nat.not_le.mpr hc
  | cons v rest ih =>
      intro c hc epoch
      have hv : 0 ≤ v := hnn v (List.mem_cons_self _ _)
      have hstep : trainStep patience ⟨0, c, [], false⟩ epoch v =
          ⟨0, c + 1, [], decide (patience ≤ c + 1)⟩ := by
        unfold trainStep
        rw [if_neg (by simp), if_neg (not_lt.mpr hv)]
      have hunf : runTrainingAux patience ⟨0, c, [], false⟩ epoch (v :: rest) =
          runTrainingAux patience (trainStep patience ⟨0, c, [], false⟩ epoch v)
            (epoch + 1) rest := rfl
      by_cases hp : patience ≤ c + 1
      · have heq : runTrainingAux patience ⟨0, c, [], false⟩ epoch (v :: rest) =
            ⟨0, c + 1, [], true⟩ := by
          rw [hunf, hstep, decide_eq_true hp]
          exact runTrainingAux_stopped _ _ rfl _ _
        rw [heq]
        exact ⟨rfl, rfl, fun _ => rfl⟩
      · have hrest := ih (fun w hw => hnn w (List.mem_cons_of_mem _ hw))
          (c + 1) (Nat.lt_of_not_le hp) (epoch + 1)
        have heq : runTrainingAux patience ⟨0, c, [], false⟩ epoch (v :: rest) =
            runTrainingAux patience ⟨0, c + 1, [], false⟩ (epoch + 1) rest := by
          rw [hunf, hstep, decide_eq_false hp]
        rw [heq]
        refine ⟨hrest.1, hrest.2.1, fun hle => hrest.2.2 ?_⟩
        simp only [List.length_cons] at hle
        omega

/-- C5 is a bug in the source: `Trainer.__init__` sets
`best_val_score = 0.0` and `Trainer.train` checkpoints only when
`val_loss < best_val_score`.  `BCEWithLogitsLoss` is nonnegative (and the
zero-sample case yields `inf`), so the comparison never succeeds: no
checkpoint is ever written — not even on strictly improving runs — and
every epoch counts as "no improvement", so training always stops after
exactly `patience` epochs. -/
theorem trainer_never_checkpoints (patience : ℕ) (vals : List ℚ)
    (hnn : ∀ v ∈ vals, 0 ≤ v) (hp : 0 < patience) (hl : patience ≤ vals.length) :
    (runTraining patience vals).saved = [] ∧
    (runTraining patience vals).stopped = true := by
  have h := runTrainingAux_no_save patience vals hnn 0 hp 0
  exact ⟨h.1, h.2.2 (by simpa using hl)⟩

/-- Witness for C5: a strictly improving validation-loss sequence with
patience 2 — the best model is never saved and training stops early
anyway. -/
theorem trainer_never_checkpoints_witness :
    (runTraining 2 [3, 2, 1]).saved = [] ∧
    (runTraining 2 [3, 2, 1]).stopped = true :=
  trainer_never_checkpoints 2 [3, 2, 1] (by decide) (by decide) (by decide)

/-! ## C6 -/

/-- Membership in a fold of appended per-row edge lists. -/
theorem mem_foldr_append {α β : Type} (f : α → List β) (l : List α) (x : β) :
    x ∈ l.foldr (fun a acc => f a ++ acc) [] ↔ ∃ a ∈ l, x ∈ f a := by
  induction l with
  | nil => simp
  | cons a t ih => simp [ih]

/-- C6: in every constructed graph whose input rows carry in-range dense
indices, every edge endpoint lies inside its node type's range under the
flat offsets — users at `[0, n_users)`, recipes at
`[n_users, n_users + n_recipes)`, ingredients at
`[n_users + n_recipes, n_users + n_recipes + n_ingredients)`. -/
theorem graph_edge_endpoints_in_range (inters : List Interaction)
    (recipes : List RecipeRow) (n_users n_recipes : ℕ)
    (hu : ∀ i ∈ inters, i.user_idx < n_users)
    (hi : ∀ i ∈ inters, i.recipe_idx < n_recipes)
    (hr : ∀ r ∈ recipes, r.recipe_idx < n_recipes) :
    (∀ e ∈ buildUserRecipeEdges inters n_users,
       e.1 < n_users ∧ n_users ≤ e.2 ∧ e.2 < n_users + n_recipes) ∧
    (∀ e ∈ buildRecipeIngredientEdges recipes n_users n_recipes,
       n_users ≤ e.1 ∧ e.1 < n_users + n_recipes ∧
       n_users + n_recipes ≤ e.2 ∧
       e.2 < n_users + n_recipes + (ingredientVocab recipes).length) := by
  constructor
  · intro e he
    rcases List.mem_map.mp he with ⟨i, him, rfl⟩
    have h1 := hu i him
    have h2 := hi i him
    exact ⟨h1, Nat.le_add_left _ _, by omega⟩
  · intro e he
    simp only [buildRecipeIngredientEdges] at he
    rcases (mem_foldr_append _ recipes e).mp he with ⟨r, hrm, hedge⟩
    have hid := hr r hrm
    unfold rowIngredientEdges at hedge
    rcases hv : r.ingredients with _ | ⟨raw, parsed⟩ | l
    · rw [hv] at hedge; cases hedge
    · rw [hv] at hedge; cases hedge
    · rw [hv] at hedge
      rcases List.mem_filterMap.mp hedge with ⟨ing, _, hsome⟩
      by_cases hmem : normalizeIng ing ∈ ingredientVocab recipes
      · rw [if_pos hmem] at hsome
        cases hsome
        have hidx := List.indexOf_lt_length.mpr hmem
        refine ⟨Nat.le_add_left _ _, by omega, by omega, by omega⟩
      · rw [if_neg hmem] at hsome
        cases hsome

/-- Witness for C6 on a two-user, two-recipe, concrete-ingredient graph. -/
theorem graph_edge_endpoints_in_range_witness :
    (∀ e ∈ buildUserRecipeEdges [⟨0, 1⟩, ⟨1, 0⟩] 2,
       e.1 < 2 ∧ 2 ≤ e.2 ∧ e.2 < 2 + 2) ∧
    (∀ e ∈ buildRecipeIngredientEdges
        [⟨0, .listVal ["Egg", "flour"]⟩, ⟨1, .listVal ["egg"]⟩] 2 2,
       2 ≤ e.1 ∧ e.1 < 2 + 2 ∧ 2 + 2 ≤ e.2 ∧
       e.2 < 2 + 2 + (ingredientVocab
         [⟨0, .listVal ["Egg", "flour"]⟩, ⟨1, .listVal ["egg"]⟩]).length) :=
  graph_edge_endpoints_in_range [⟨0, 1⟩, ⟨1, 0⟩]
    [⟨0, .listVal ["Egg", "flour"]⟩, ⟨1, .listVal ["egg"]⟩] 2 2
    (by decide) (by decide) (by decide)

/-! ## C2 -/

theorem filterRecipesByAllergies_sublist (rs : List Recipe) (al : List String) :
    filterRecipesByAllergies rs al <+ rs := by
  unfold filterRecipesByAllergies
  split
  · exact List.Sublist.refl _
  · exact List.filter_sublist _

theorem filterRecipesByDietaryRestrictions_sublist (rs : List Recipe)
    (restrictions : List String) :
    filterRecipesByDietaryRestrictions rs restrictions <+ rs := by
  unfold filterRecipesByDietaryRestrictions
  split
  · exact List.Sublist.refl _
  · split
    · exact List.Sublist.refl _
    · exact List.filter_sublist _

theorem filterRecipesByDisliked_sublist (rs : List Recipe)
    (disliked : List String) : filterRecipesByDisliked rs disliked <+ rs := by
  unfold filterRecipesByDisliked
  split
  · exact List.Sublist.refl _
  · exact List.filter_sublist _

theorem filterRecipesByNutrition_sublist (rs : List Recipe)
    (mc mp mcb mf : Option ℚ) :
    filterRecipesByNutrition rs mc mp mcb mf <+ rs := by
  unfold filterRecipesByNutrition
  split
  · exact List.Sublist.refl _
  · exact (List.filter_sublist _).trans ((List.filter_sublist _).trans
      ((List.filter_sublist _).trans (List.filter_sublist _)))

theorem profAllergyStage_sublist (p : UserProfile) (rs : List Recipe) :
    profAllergyStage p rs <+ rs := by
  unfold profAllergyStage
  split
  · exact List.Sublist.refl _
  · exact filterRecipesByAllergies_sublist _ _

theorem profDietaryStage_sublist (p : UserProfile) (rs : List Recipe) :
    profDietaryStage p rs <+ rs := by
  unfold profDietaryStage
  split
  · exact List.Sublist.refl _
  · exact filterRecipesByDietaryRestrictions_sublist _ _

theorem profNutritionStage_sublist (p : UserProfile) (rs : List Recipe) :
    profNutritionStage p rs <+ rs := by
  unfold profNutritionStage
  split
  · exact filterRecipesByNutrition_sublist _ _ _ _ _
  · exact List.Sublist.refl _

theorem profDislikedStage_sublist (p : UserProfile) (rs : List Recipe) :
    profDislikedStage p rs <+ rs := by
  unfold profDislikedStage
  split
  · exact List.Sublist.refl _
  · exact filterRecipesByDisliked_sublist _ _

theorem profPrepTimeStage_sublist (p : UserProfile) (rs : List Recipe) :
    profPrepTimeStage p rs <+ rs := by
  unfold profPrepTimeStage
  cases p.max_prep_time with
  | none => exact List.Sublist.refl _
  | some m =>
      dsimp only
      by_cases h : m = 0
      · rw [if_pos h]
      · rw [if_neg h]
        exact List.filter_sublist _

/-- The whole five-stage pipeline only narrows the candidate set. -/
theorem applyUserProfileFilters_sublist (rs : List Recipe) (p : UserProfile) :
    applyUserProfileFilters rs p <+ rs := by
  unfold applyUserProfileFilters
  refine (profPrepTimeStage_sublist _ _).trans ?_
  refine (profDislikedStage_sublist _ _).trans ?_
  refine (profNutritionStage_sublist _ _).trans ?_
  exact (profDietaryStage_sublist _ _).trans (profAllergyStage_sublist _ _)

theorem profileStage_sublist (allRecipes : List Recipe)
    (profile : Option UserProfile) (useProfile : Bool) :
    profileStage allRecipes profile useProfile <+ allRecipes := by
  unfold profileStage profileRelaxStage
  split
  · cases profile with
    | none => exact List.Sublist.refl _
    | some p =>
        dsimp only
        split
        · exact List.Sublist.refl _
        · exact applyUserProfileFilters_sublist _ _
  · exact List.Sublist.refl _

/-- The ingredient filter stage only keeps (enriched) rows of its input. -/
theorem ingredientFilterStage_recipes_sublist (avail : List String)
    (rs : List Recipe) :
    (ingredientFilterStage avail rs).map (fun c => c.recipe) <+ rs := by
  unfold ingredientFilterStage
  split
  · rw [List.map_map]
    have hcomp : List.map ((fun c : Cand => c.recipe) ∘
        fun r : Recipe => (⟨r, emptyMatch⟩ : Cand)) rs = rs := List.map_id rs
    rw [hcomp]
  · have h1 := List.Sublist.map (fun c : Cand => c.recipe)
      (List.filter_sublist
        (p := fun c : Cand =>
          decide (0 < c.md.matched) && decide ((1/5 : ℚ) ≤ c.md.mratio))
        (rs.map fun r => (⟨r, calculateIngredientMatch (availSet avail) r.ingredients⟩ : Cand)))
    have hcomp : List.map ((fun c : Cand => c.recipe) ∘
        fun r : Recipe => (⟨r, calculateIngredientMatch (availSet avail) r.ingredients⟩ : Cand)) rs
        = rs := List.map_id rs
    rw [List.map_map, hcomp] at h1
    exact h1

theorem timeFilterStage_sublist (mt : Option ℚ) (cs : List Cand) :
    timeFilterStage mt cs <+ cs := by
  unfold timeFilterStage
  cases mt with
  | none => exact List.Sublist.refl _
  | some t =>
      dsimp only
      by_cases h : t = 0
      · rw [if_pos h]
      · rw [if_neg h]
        exact List.filter_sublist _

/-- Fallback half of the shape property: on a non-empty recipe table with
pairwise distinct recipe ids, the fallback response carries no duplicate id
and its three lists share one length, at most `top_k`. -/
theorem fallback_response_shape (allRecipes : List Recipe)
    (profile : Option UserProfile) (ratings : List (ℕ × ℚ))
    (req : RecommendationRequest) (hne : allRecipes ≠ [])
    (hnd : (allRecipes.map fun r => r.recipe_id).Nodup) :
    (fallbackRecommend allRecipes profile ratings req).recipe_ids.Nodup ∧
    (fallbackRecommend allRecipes profile ratings req).recipe_ids.length =
      (fallbackRecommend allRecipes profile ratings req).scores.length ∧
    (fallbackRecommend allRecipes profile ratings req).scores.length =
      (fallbackRecommend allRecipes profile ratings req).explanations.length ∧
    (fallbackRecommend allRecipes profile ratings req).recipe_ids.length ≤
      req.top_k := by
  have hemp : allRecipes.isEmpty = false :=
    Bool.eq_false_iff.mpr fun hh => hne (List.isEmpty_iff.mp hh)
  have hresp : fallbackRecommend allRecipes profile ratings req =
      ⟨(fallbackTop allRecipes profile ratings req).map fun x => x.1.recipe.recipe_id,
       (fallbackTop allRecipes profile ratings req).map fun x => x.2,
       (fallbackTop allRecipes profile ratings req).map fun x => explainCand x.1⟩ := by
    unfold fallbackRecommend
    rw [hemp]
    simp
  rw [hresp]
  refine ⟨?_, by simp, by simp, ?_⟩
  · -- no duplicate ids
    have h1 : ((fallbackCandidates allRecipes profile req).map
        fun c => c.recipe.recipe_id).Nodup := by
      have hsub1 : (fallbackCandidates allRecipes profile req).map
          (fun c => c.recipe) <+
          (ingredientFilterStage req.available_ingredients
            (profileStage allRecipes profile req.use_profile)).map
            (fun c => c.recipe) :=
        List.Sublist.map _ (timeFilterStage_sublist _ _)
      have hsub2 := ingredientFilterStage_recipes_sublist
        req.available_ingredients (profileStage allRecipes profile req.use_profile)
      have hsub3 := profileStage_sublist allRecipes profile req.use_profile
      have hall : (fallbackCandidates allRecipes profile req).map
          (fun c => c.recipe) <+ allRecipes :=
        hsub1.trans (hsub2.trans hsub3)
      have hidsub : ((fallbackCandidates allRecipes profile req).map
          fun c => c.recipe.recipe_id) <+ (allRecipes.map fun r => r.recipe_id) := by
        have := List.Sublist.map (fun r : Recipe => r.recipe_id) hall
        simpa [List.map_map, Function.comp] using this
      exact hidsub.nodup hnd
    have h2 : ((fallbackScored allRecipes profile ratings req).map
        fun x => x.1.recipe.recipe_id) =
        ((fallbackCandidates allRecipes profile req).map
          fun c => c.recipe.recipe_id) := by
      unfold fallbackScored
      simp [List.map_map, Function.comp]
    have h3 : ((sortByScoreDesc (fallbackScored allRecipes profile ratings req)).map
        fun x => x.1.recipe.recipe_id).Nodup := by
      refine ((List.perm_insertionSort scorePairRel _).map _).nodup_iff.mpr ?_
      rw [h2]
      exact h1
    have h4 : ((fallbackTop allRecipes profile ratings req).map
        fun x => x.1.recipe.recipe_id) <+
        ((sortByScoreDesc (fallbackScored allRecipes profile ratings req)).map
          fun x => x.1.recipe.recipe_id) := by
      unfold fallbackTop
      rw [List.map_take]
      exact List.take_sublist _ _
    exact h4.nodup h3
  · -- length bound
    have : (fallbackTop allRecipes profile ratings req).length ≤ req.top_k := by
      unfold fallbackTop
      rw [List.length_take]
      exact le_trans (Nat.min_le_left _ _) (Nat.min_le_left _ _)
    simpa using this

/-- A `filterMap` whose function succeeds on every element keeps the length. -/
theorem filterMap_length_of_isSome {α β : Type} (f : α → Option β)
    (l : List α) (h : ∀ x ∈ l, (f x).isSome = true) :
    (l.filterMap f).length = l.length := by
  induction l with
  | nil => rfl
  | cons a t ih =>
      obtain ⟨b, hb⟩ := Option.isSome_iff_exists.mp (h a (List.mem_cons_self a t))
      rw [List.filterMap_cons, hb]
      simp [ih fun x hx => h x (List.mem_cons_of_mem a hx)]

/-- The model path's profile post-filter returns a sublist of its input
pairs (the back-off restores the whole input). -/
theorem gnnProfileFilter_sublist (table : List Recipe)
    (profile : Option UserProfile) (useProfile : Bool)
    (pairs : List (ℕ × ℚ)) :
    gnnProfileFilter table profile useProfile pairs <+ pairs := by
  unfold gnnProfileFilter
  by_cases hu : useProfile = true
  · rw [if_pos hu]
    cases profile with
    | none => exact List.Sublist.refl _
    | some p =>
        dsimp only
        by_cases he : (pairs.filter (gnnKeepPair table p)).isEmpty = true
        · rw [if_pos he]
        · rw [if_neg he]
          exact List.filter_sublist _
  · rw [if_neg hu]

/-- The first components of the selected pairs are the selected indices
mapped through the id table. -/
theorem gnnPairs_map_fst (idxToRecipe : List ℕ) (scores : List ℚ)
    (topIdx : List ℕ) :
    (gnnPairs idxToRecipe scores topIdx).map Prod.fst =
      topIdx.map fun i => idxToRecipe.getD i 0 := by
  simp [gnnPairs, List.map_map, Function.comp]

/-- Shape of the model path's assembly: when the selected ids are pairwise
distinct and each is present in the recipe table, the response has no
duplicate id, its three lists share one length, and that length is at most
the number of selected indices. -/
theorem gnnAssemble_shape (table : List Recipe) (profile : Option UserProfile)
    (useProfile : Bool) (idxToRecipe : List ℕ) (scores : List ℚ)
    (topIdx : List ℕ)
    (hnd : (topIdx.map fun i => idxToRecipe.getD i 0).Nodup)
    (hfound : ∀ i ∈ topIdx,
      (lookupRecipe table (idxToRecipe.getD i 0)).isSome = true) :
    (gnnAssemble table profile useProfile idxToRecipe scores topIdx).recipe_ids.Nodup ∧
    (gnnAssemble table profile useProfile idxToRecipe scores topIdx).recipe_ids.length =
      (gnnAssemble table profile useProfile idxToRecipe scores topIdx).scores.length ∧
    (gnnAssemble table profile useProfile idxToRecipe scores topIdx).scores.length =
      (gnnAssemble table profile useProfile idxToRecipe scores topIdx).explanations.length ∧
    (gnnAssemble table profile useProfile idxToRecipe scores topIdx).recipe_ids.length ≤
      topIdx.length := by
  have hsub : gnnProfileFilter table profile useProfile
      (gnnPairs idxToRecipe scores topIdx) <+ gnnPairs idxToRecipe scores topIdx :=
    gnnProfileFilter_sublist table profile useProfile _
  have hidsub : (gnnProfileFilter table profile useProfile
      (gnnPairs idxToRecipe scores topIdx)).map Prod.fst <+
      topIdx.map fun i => idxToRecipe.getD i 0 := by
    rw [← gnnPairs_map_fst idxToRecipe scores topIdx]
    exact hsub.map Prod.fst
  have hids : ∀ rid ∈ (gnnProfileFilter table profile useProfile
      (gnnPairs idxToRecipe scores topIdx)).map Prod.fst,
      (lookupRecipe table rid).isSome = true := by
    intro rid hr
    obtain ⟨i, hi, hie⟩ := List.mem_map.mp (hidsub.subset hr)
    rw [← hie]
    exact hfound i hi
  have hexp : (gnnExplanations table ((gnnProfileFilter table profile useProfile
      (gnnPairs idxToRecipe scores topIdx)).map Prod.fst)).length =
      ((gnnProfileFilter table profile useProfile
        (gnnPairs idxToRecipe scores topIdx)).map Prod.fst).length := by
    unfold gnnExplanations
    refine filterMap_length_of_isSome _ _ ?_
    intro rid hr
    have h1 := hids rid hr
    cases hl : lookupRecipe table rid with
    | none => rw [hl] at h1; simp at h1
    | some r => rfl
  refine ⟨hidsub.nodup hnd, ?_, ?_, ?_⟩
  · simp [gnnAssemble]
  · simp only [gnnAssemble]
    rw [hexp]
    simp
  · simpa [gnnAssemble] using hidsub.length_le

/-- C2 (amended): recommend's response has no duplicate ids and three lists
of one shared length, at most `top_k`, on both paths — the fallback when the
recipe table is non-empty with distinct ids, and the model path when the
selected ids are distinct and each is present in the recipe table.  The
exceptions (empty-table fallback answer; model-path ids absent from the
table) are exhibited separately. -/
theorem recommend_response_shape
    (allRecipes : List Recipe) (profile : Option UserProfile)
    (ratings : List (ℕ × ℚ)) (req : RecommendationRequest)
    (table : List Recipe) (gprofile : Option UserProfile) (guseProfile : Bool)
    (idxToRecipe : List ℕ) (scores : List ℚ) (top_k : ℕ)
    (hne : allRecipes ≠ [])
    (hnd : (allRecipes.map fun r => r.recipe_id).Nodup)
    (hsel : ((gnnTopIndices scores top_k).map fun i => idxToRecipe.getD i 0).Nodup)
    (hfound : ∀ i ∈ gnnTopIndices scores top_k,
      (lookupRecipe table (idxToRecipe.getD i 0)).isSome = true) :
    ((fallbackRecommend allRecipes profile ratings req).recipe_ids.Nodup ∧
     (fallbackRecommend allRecipes profile ratings req).recipe_ids.length =
       (fallbackRecommend allRecipes profile ratings req).scores.length ∧
     (fallbackRecommend allRecipes profile ratings req).scores.length =
       (fallbackRecommend allRecipes profile ratings req).explanations.length ∧
     (fallbackRecommend allRecipes profile ratings req).recipe_ids.length ≤
       req.top_k) ∧
    ((gnnRecommend table gprofile guseProfile idxToRecipe scores top_k).recipe_ids.Nodup ∧
     (gnnRecommend table gprofile guseProfile idxToRecipe scores top_k).recipe_ids.length =
       (gnnRecommend table gprofile guseProfile idxToRecipe scores top_k).scores.length ∧
     (gnnRecommend table gprofile guseProfile idxToRecipe scores top_k).scores.length =
       (gnnRecommend table gprofile guseProfile idxToRecipe scores top_k).explanations.length ∧
     (gnnRecommend table gprofile guseProfile idxToRecipe scores top_k).recipe_ids.length ≤
       top_k) := by
  refine ⟨fallback_response_shape allRecipes profile ratings req hne hnd, ?_⟩
  have h := gnnAssemble_shape table gprofile guseProfile idxToRecipe scores
    (gnnTopIndices scores top_k) hsel hfound
  have hlen : (gnnTopIndices scores top_k).length ≤ top_k := by
    unfold gnnTopIndices
    rw [List.length_take]
    exact Nat.min_le_left _ _
  exact ⟨h.1, h.2.1, h.2.2.1, le_trans h.2.2.2 hlen⟩

/-- Counterexample to C2 as stated: (a) on an empty recipe table the fallback
returns zero ids and zero scores but one explanation string; (b) on the model
path, an id mapped outside the recipe table keeps its slot in `recipe_ids`
and `scores` but contributes no explanation, so a returned response (ids
non-empty, hence no fallback dispatch) here has two ids but one explanation. -/
theorem recommend_shape_counterexamples :
    ((fallbackRecommend [] none [] ⟨[], none, 5, true⟩).recipe_ids.length = 0 ∧
     (fallbackRecommend [] none [] ⟨[], none, 5, true⟩).explanations.length = 1) ∧
    ((gnnRecommend [c1Safe] none false [1, 2] [1, 2] 2).recipe_ids.length = 2 ∧
     (gnnRecommend [c1Safe] none false [1, 2] [1, 2] 2).explanations.length = 1) := by
  decide

/-- Witness for C2 (amended): the fallback on a two-recipe table, and a model
path run in which both selected ids are present in the recipe table. -/
theorem recommend_response_shape_witness :
    ((fallbackRecommend [c1Allergenic, c1Safe] none [] ⟨[], none, 5, true⟩).recipe_ids.Nodup ∧
     (fallbackRecommend [c1Allergenic, c1Safe] none [] ⟨[], none, 5, true⟩).recipe_ids.length =
       (fallbackRecommend [c1Allergenic, c1Safe] none [] ⟨[], none, 5, true⟩).scores.length ∧
     (fallbackRecommend [c1Allergenic, c1Safe] none [] ⟨[], none, 5, true⟩).scores.length =
       (fallbackRecommend [c1Allergenic, c1Safe] none [] ⟨[], none, 5, true⟩).explanations.length ∧
     (fallbackRecommend [c1Allergenic, c1Safe] none [] ⟨[], none, 5, true⟩).recipe_ids.length ≤ 5) ∧
    ((gnnRecommend [c1Allergenic, c1Safe] none false [1, 2] [1, 2] 5).recipe_ids.Nodup ∧
     (gnnRecommend [c1Allergenic, c1Safe] none false [1, 2] [1, 2] 5).recipe_ids.length =
       (gnnRecommend [c1Allergenic, c1Safe] none false [1, 2] [1, 2] 5).scores.length ∧
     (gnnRecommend [c1Allergenic, c1Safe] none false [1, 2] [1, 2] 5).scores.length =
       (gnnRecommend [c1Allergenic, c1Safe] none false [1, 2] [1, 2] 5).explanations.length ∧
     (gnnRecommend [c1Allergenic, c1Safe] none false [1, 2] [1, 2] 5).recipe_ids.length ≤ 5) :=
  recommend_response_shape [c1Allergenic, c1Safe] none [] ⟨[], none, 5, true⟩
    [c1Allergenic, c1Safe] none false [1, 2] [1, 2] 5
    (by decide) (by decide) (by decide) (by decide)

/-! ## C8 -/

/-- The duplicate-free normalized list and the normalized set hold the same
ingredients. -/
theorem mem_recipeNormList_iff (ings : List String) (x : String) :
    x ∈ recipeNormList ings ↔ x ∈ recipeNormSet ings := by
  simp [recipeNormList, recipeNormSet, List.mem_dedup, List.mem_toFinset]

/-- With a non-empty parsed ingredient list, the match columns are the
normalized-set statistics. -/
theorem calculateIngredientMatch_fields (aset : Finset String)
    (v : IngredientsField) (h : ¬(fallbackParsedIngredients v).isEmpty = true) :
    calculateIngredientMatch aset v =
      ⟨(aset ∩ recipeNormSet (fallbackParsedIngredients v)).card,
       (recipeNormSet (fallbackParsedIngredients v)).card,
       if 0 < (recipeNormSet (fallbackParsedIngredients v)).card then
         ((aset ∩ recipeNormSet (fallbackParsedIngredients v)).card : ℚ) /
           ((recipeNormSet (fallbackParsedIngredients v)).card : ℚ)
       else 0,
       (aset ∩ recipeNormSet (fallbackParsedIngredients v)).card,
       (recipeNormList (fallbackParsedIngredients v)).filter fun s => decide (s ∉ aset),
       (recipeNormList (fallbackParsedIngredients v)).filter fun s => decide (s ∈ aset)⟩ := by
  unfold calculateIngredientMatch
  rw [if_neg h]

/-- The `has_all_ingredients` boolean says exactly: the (non-empty)
normalized recipe-ingredient set is contained in the available set. -/
theorem hasAllIngredients_iff (aset : Finset String) (v : IngredientsField) :
    hasAllIngredients (calculateIngredientMatch aset v) = true ↔
      (recipeNormSet (fallbackParsedIngredients v) ≠ ∅ ∧
       recipeNormSet (fallbackParsedIngredients v) ⊆ aset) := by
  by_cases h : (fallbackParsedIngredients v).isEmpty = true
  · have hempty : calculateIngredientMatch aset v = emptyMatch := by
      unfold calculateIngredientMatch
      rw [if_pos h]
    rw [hempty]
    have hnil : fallbackParsedIngredients v = [] := List.isEmpty_iff.mp h
    rw [hnil]
    constructor
    · intro hh
      exact absurd hh (by decide)
    · rintro ⟨hne, -⟩
      exact absurd rfl hne
  · rw [calculateIngredientMatch_fields aset v h]
    unfold hasAllIngredients
    simp only [Bool.and_eq_true, decide_eq_true_iff]
    constructor
    · rintro ⟨⟨⟨hmt, ht⟩, -⟩, -⟩
      have hsub : aset ∩ recipeNormSet (fallbackParsedIngredients v) =
          recipeNormSet (fallbackParsedIngredients v) :=
        Finset.eq_of_subset_of_card_le Finset.inter_subset_right (le_of_eq hmt.symm)
      refine ⟨?_, ?_⟩
      · exact Finset.nonempty_iff_ne_empty.mp (Finset.card_pos.mp ht)
      · rw [← hsub]
        exact Finset.inter_subset_left
    · rintro ⟨hne, hsub⟩
      have hinter : aset ∩ recipeNormSet (fallbackParsedIngredients v) =
          recipeNormSet (fallbackParsedIngredients v) :=
        Finset.inter_eq_right.mpr hsub
      have ht : 0 < (recipeNormSet (fallbackParsedIngredients v)).card :=
        Finset.card_pos.mpr (Finset.nonempty_iff_ne_empty.mpr hne)
      refine ⟨⟨⟨by rw [hinter], ht⟩, by rw [hinter]; exact ht⟩, ?_⟩
      rw [List.length_eq_zero, List.filter_eq_nil_iff]
      intro s hs
      simp only [decide_eq_true_iff, Decidable.not_not]
      exact hsub ((mem_recipeNormList_iff _ s).mp hs)

/-- C8: with a non-empty available-ingredient list, a recipe of the table
enters the fallback candidate set iff it shares at least one normalized
ingredient with the available set and its match ratio
(matched over total recipe ingredients) is at least `0.2`. -/
theorem fallback_candidate_rule (avail : List String) (rs : List Recipe)
    (ha : avail ≠ []) (r : Recipe) (hr : r ∈ rs) :
    (∃ md, (⟨r, md⟩ : Cand) ∈ ingredientFilterStage avail rs) ↔
      (1 ≤ ((availSet avail) ∩
          recipeNormSet (fallbackParsedIngredients r.ingredients)).card ∧
       (1/5 : ℚ) ≤ specMatchRatio (availSet avail)
          (recipeNormSet (fallbackParsedIngredients r.ingredients))) := by
  have hae : avail.isEmpty = false :=
    Bool.eq_false_iff.mpr fun hh => ha (List.isEmpty_iff.mp hh)
  constructor
  · rintro ⟨md, hmd⟩
    simp only [ingredientFilterStage, hae, Bool.false_eq_true, if_false] at hmd
    obtain ⟨hin, hcond⟩ := List.mem_filter.mp hmd
    obtain ⟨r', hr', heq⟩ := List.mem_map.mp hin
    have hrr : r' = r := congrArg Cand.recipe heq
    have hmdeq : calculateIngredientMatch (availSet avail) r.ingredients = md := by
      have := congrArg Cand.md heq
      rw [hrr] at this
      exact this
    rw [← hmdeq] at hcond
    simp only [Bool.and_eq_true, decide_eq_true_iff] at hcond
    obtain ⟨hm, hq⟩ := hcond
    by_cases hi : (fallbackParsedIngredients r.ingredients).isEmpty = true
    · have : calculateIngredientMatch (availSet avail) r.ingredients = emptyMatch := by
        unfold calculateIngredientMatch
        rw [if_pos hi]
      rw [this] at hm
      exact absurd hm (by decide)
    · rw [calculateIngredientMatch_fields _ _ hi] at hm hq
      refine ⟨hm, ?_⟩
      have ht : 0 < (recipeNormSet (fallbackParsedIngredients r.ingredients)).card :=
        lt_of_lt_of_le hm
          (Finset.card_le_card Finset.inter_subset_right)
      rw [if_pos ht] at hq
      exact hq
  · rintro ⟨h1, h2⟩
    have hne : ¬(fallbackParsedIngredients r.ingredients).isEmpty = true := by
      intro hi
      rw [List.isEmpty_iff.mp hi] at h1
      simp [recipeNormSet] at h1
    refine ⟨calculateIngredientMatch (availSet avail) r.ingredients, ?_⟩
    simp only [ingredientFilterStage, hae, Bool.false_eq_true, if_false]
    refine List.mem_filter.mpr ⟨List.mem_map_of_mem _ hr, ?_⟩
    have ht : 0 < (recipeNormSet (fallbackParsedIngredients r.ingredients)).card :=
      lt_of_lt_of_le h1 (Finset.card_le_card Finset.inter_subset_right)
    have hm : 0 < (calculateIngredientMatch (availSet avail) r.ingredients).matched := by
      rw [calculateIngredientMatch_fields _ _ hne]
      exact h1
    have hq : (1/5 : ℚ) ≤ (calculateIngredientMatch (availSet avail) r.ingredients).mratio := by
      rw [calculateIngredientMatch_fields _ _ hne]
      simp only
      rw [if_pos ht]
      exact h2
    rw [Bool.and_eq_true]
    exact ⟨decide_eq_true hm, decide_eq_true hq⟩

/-- Witness for C8: `["egg", "milk"]` available against a table of a
fully-matched recipe and a no-match recipe — the rule admits the first and
rejects the second. -/
theorem fallback_candidate_rule_witness :
    ((∃ md, (⟨⟨1, "omelette", .listVal ["Egg"], none, none, none, none, none⟩, md⟩ : Cand) ∈
        ingredientFilterStage ["egg", "milk"]
          [⟨1, "omelette", .listVal ["Egg"], none, none, none, none, none⟩]) ↔
      (1 ≤ ((availSet ["egg", "milk"]) ∩
          recipeNormSet (fallbackParsedIngredients (.listVal ["Egg"]))).card ∧
       (1/5 : ℚ) ≤ specMatchRatio (availSet ["egg", "milk"])
          (recipeNormSet (fallbackParsedIngredients (.listVal ["Egg"]))))) ∧
    ((∃ md, (⟨⟨2, "toast", .listVal ["bread"], none, none, none, none, none⟩, md⟩ : Cand) ∈
        ingredientFilterStage ["egg", "milk"]
          [⟨2, "toast", .listVal ["bread"], none, none, none, none, none⟩]) ↔
      (1 ≤ ((availSet ["egg", "milk"]) ∩
          recipeNormSet (fallbackParsedIngredients (.listVal ["bread"]))).card ∧
       (1/5 : ℚ) ≤ specMatchRatio (availSet ["egg", "milk"])
          (recipeNormSet (fallbackParsedIngredients (.listVal ["bread"]))))) :=
  ⟨fallback_candidate_rule ["egg", "milk"]
      [⟨1, "omelette", .listVal ["Egg"], none, none, none, none, none⟩]
      (by decide) _ (List.mem_singleton.mpr rfl),
   fallback_candidate_rule ["egg", "milk"]
      [⟨2, "toast", .listVal ["bread"], none, none, none, none, none⟩]
      (by decide) _ (List.mem_singleton.mpr rfl)⟩

/-! ## C3 -/

/-- What membership in the ingredient filter stage gives: the enriched
match columns and the two filter conditions. -/
theorem mem_ingredientFilterStage_facts (avail : List String) (rs : List Recipe)
    (c : Cand) (ha : avail ≠ []) (hc : c ∈ ingredientFilterStage avail rs) :
    c.recipe ∈ rs ∧
    c.md = calculateIngredientMatch (availSet avail) c.recipe.ingredients ∧
    0 < c.md.matched ∧ (1/5 : ℚ) ≤ c.md.mratio := by
  have hae : avail.isEmpty = false :=
    Bool.eq_false_iff.mpr fun hh => ha (List.isEmpty_iff.mp hh)
  simp only [ingredientFilterStage, hae, Bool.false_eq_true, if_false] at hc
  obtain ⟨hin, hcond⟩ := List.mem_filter.mp hc
  obtain ⟨r', hr', heq⟩ := List.mem_map.mp hin
  have hrr : r' = c.recipe := congrArg Cand.recipe heq
  subst hrr
  have hmd : c.md = calculateIngredientMatch (availSet avail) c.recipe.ingredients :=
    (congrArg Cand.md heq).symm
  simp only [Bool.and_eq_true, decide_eq_true_iff] at hcond
  exact ⟨hr', hmd, hcond.1, hcond.2⟩

/-- Constructing membership in the ingredient filter stage from the
normalized-set conditions. -/
theorem mem_ingredientFilterStage_intro (avail : List String) (rs : List Recipe)
    (r : Recipe) (ha : avail ≠ []) (hr : r ∈ rs)
    (h1 : 1 ≤ ((availSet avail) ∩
        recipeNormSet (fallbackParsedIngredients r.ingredients)).card)
    (h2 : (1/5 : ℚ) ≤ specMatchRatio (availSet avail)
        (recipeNormSet (fallbackParsedIngredients r.ingredients))) :
    (⟨r, calculateIngredientMatch (availSet avail) r.ingredients⟩ : Cand) ∈
      ingredientFilterStage avail rs := by
  have hae : avail.isEmpty = false :=
    Bool.eq_false_iff.mpr fun hh => ha (List.isEmpty_iff.mp hh)
  have hne : ¬(fallbackParsedIngredients r.ingredients).isEmpty = true := by
    intro hi
    rw [List.isEmpty_iff.mp hi] at h1
    simp [recipeNormSet] at h1
  have ht : 0 < (recipeNormSet (fallbackParsedIngredients r.ingredients)).card :=
    lt_of_lt_of_le h1 (Finset.card_le_card Finset.inter_subset_right)
  simp only [ingredientFilterStage, hae, Bool.false_eq_true, if_false]
  refine List.mem_filter.mpr ⟨List.mem_map_of_mem _ hr, ?_⟩
  have hm : 0 < (calculateIngredientMatch (availSet avail) r.ingredients).matched := by
    rw [calculateIngredientMatch_fields _ _ hne]
    exact h1
  have hq : (1/5 : ℚ) ≤ (calculateIngredientMatch (availSet avail) r.ingredients).mratio := by
    rw [calculateIngredientMatch_fields _ _ hne]
    dsimp only
    rw [if_pos ht]
    exact h2
  rw [Bool.and_eq_true]
  exact ⟨decide_eq_true hm, decide_eq_true hq⟩

/-- `clip(0, 1)` commutes: pandas clips below then above, the spec clamps
above then below; the two agree. -/
theorem clip_comm (x : ℚ) : max 0 (min 1 x) = min 1 (max 0 x) := by
  rcases le_total x 0 with h | h
  · rw [min_eq_right (h.trans zero_le_one), max_eq_left h, min_eq_right zero_le_one]
  · rw [max_eq_right h]
    rcases le_total 1 x with h2 | h2
    · rw [min_eq_left h2, max_eq_right zero_le_one]
    · rw [min_eq_right h2, max_eq_right h]

/-- C3: every score the fallback attaches to a candidate is exactly the
spec's formula — `0.65·(used/total_available) + 0.25·(used/recipe_total) +
0.10·(popularity normalized by the candidate-set maximum, denominator 5 when
no positive mean exists) + 0.20 completeness bonus iff the non-empty recipe
set is covered, clamped to `[0,1]` — and the normalized popularity alone
when no available ingredients were supplied. -/
theorem fallback_score_formula (allRecipes : List Recipe)
    (profile : Option UserProfile) (ratings : List (ℕ × ℚ))
    (req : RecommendationRequest) (c : Cand) (s : ℚ)
    (hmem : (c, s) ∈ fallbackScored allRecipes profile ratings req) :
    (req.available_ingredients ≠ [] →
      s = specFallbackScore (availSet req.available_ingredients)
            (recipeNormSet (fallbackParsedIngredients c.recipe.ingredients))
            req.available_ingredients.length
            (specNormalizedPopularity (rawScore ratings c.recipe)
              (maxRawScore ratings (fallbackCandidates allRecipes profile req)))) ∧
    (req.available_ingredients = [] →
      s = specNormalizedPopularity (rawScore ratings c.recipe)
            (maxRawScore ratings (fallbackCandidates allRecipes profile req))) := by
  have hup : c ∈ fallbackCandidates allRecipes profile req ∧
      s = candScore (!req.available_ingredients.isEmpty)
            req.available_ingredients.length
            (popularityDenom ratings (fallbackCandidates allRecipes profile req))
            ratings c := by
    unfold fallbackScored at hmem
    obtain ⟨c', hc', heq⟩ := List.mem_map.mp hmem
    simp only [Prod.mk.injEq] at heq
    obtain ⟨h1, h2⟩ := heq
    subst h1
    exact ⟨hc', h2.symm⟩
  obtain ⟨hc, hs⟩ := hup
  constructor
  · intro hne
    have haeb : req.available_ingredients.isEmpty = false :=
      Bool.eq_false_iff.mpr fun hh => hne (List.isEmpty_iff.mp hh)
    have hflag : (!req.available_ingredients.isEmpty) = true := by
      rw [haeb]
      rfl
    have hmemIF : c ∈ ingredientFilterStage req.available_ingredients
        (profileStage allRecipes profile req.use_profile) :=
      (timeFilterStage_sublist _ _).subset hc
    obtain ⟨-, hmd, hm, -⟩ := mem_ingredientFilterStage_facts _ _ _ hne hmemIF
    have hie : ¬(fallbackParsedIngredients c.recipe.ingredients).isEmpty = true := by
      intro hi
      have hcm : c.md = emptyMatch := by
        rw [hmd]
        unfold calculateIngredientMatch
        rw [if_pos hi]
      rw [hcm] at hm
      exact absurd hm (by decide)
    have ht : 0 < (recipeNormSet (fallbackParsedIngredients c.recipe.ingredients)).card := by
      have hm' := hm
      rw [hmd, calculateIngredientMatch_fields _ _ hie] at hm'
      exact lt_of_lt_of_le hm' (Finset.card_le_card Finset.inter_subset_right)
    have husage : (if 0 < req.available_ingredients.length then
        (c.md.usedCount : ℚ) / (req.available_ingredients.length : ℚ) else 0) =
        (((availSet req.available_ingredients ∩
            recipeNormSet (fallbackParsedIngredients c.recipe.ingredients)).card : ℚ) /
          (req.available_ingredients.length : ℚ)) := by
      rw [if_pos (List.length_pos.mpr hne), hmd,
        calculateIngredientMatch_fields _ _ hie]
    have hmr : c.md.mratio =
        (((availSet req.available_ingredients ∩
            recipeNormSet (fallbackParsedIngredients c.recipe.ingredients)).card : ℚ) /
          ((recipeNormSet (fallbackParsedIngredients c.recipe.ingredients)).card : ℚ)) := by
      rw [hmd, calculateIngredientMatch_fields _ _ hie]
      dsimp only
      rw [if_pos ht]
    have hbonus : (if hasAllIngredients c.md = true then (1/5 : ℚ) else 0) =
        (if (recipeNormSet (fallbackParsedIngredients c.recipe.ingredients) ≠ ∅ ∧
             recipeNormSet (fallbackParsedIngredients c.recipe.ingredients) ⊆
               availSet req.available_ingredients) then (1/5 : ℚ) else 0) := by
      rw [hmd]
      exact if_congr (hasAllIngredients_iff _ _) rfl rfl
    rw [hs]
    unfold candScore
    rw [if_pos hflag, husage, hmr, hbonus, clip_comm]
    rfl
  · intro hempty
    have haeb : req.available_ingredients.isEmpty = true := by
      rw [hempty]
      rfl
    have hflag : (!req.available_ingredients.isEmpty) = false := by
      rw [haeb]
      rfl
    rw [hs]
    unfold candScore
    rw [hflag]
    simp only [Bool.false_eq_true, if_false]
    rfl

/-- Witness for C3 at a one-recipe table fully matched by `["egg"]`. -/
theorem fallback_score_formula_witness :
    (w3Req.available_ingredients ≠ [] →
      w3Score = specFallbackScore (availSet w3Req.available_ingredients)
        (recipeNormSet (fallbackParsedIngredients w3Cand.recipe.ingredients))
        w3Req.available_ingredients.length
        (specNormalizedPopularity (rawScore [] w3Cand.recipe)
          (maxRawScore [] (fallbackCandidates [w3Recipe] none w3Req)))) ∧
    (w3Req.available_ingredients = [] →
      w3Score = specNormalizedPopularity (rawScore [] w3Cand.recipe)
        (maxRawScore [] (fallbackCandidates [w3Recipe] none w3Req))) :=
  fallback_score_formula [w3Recipe] none [] w3Req w3Cand w3Score
    (List.mem_map_of_mem _
      (mem_ingredientFilterStage_intro ["egg"] [w3Recipe] w3Recipe
        (by decide) (List.mem_singleton.mpr rfl) (by decide)
        (by
          have hcard1 : ((availSet ["egg"]) ∩
              recipeNormSet (fallbackParsedIngredients w3Recipe.ingredients)).card = 1 := by
            decide
          have hcard2 : (recipeNormSet
              (fallbackParsedIngredients w3Recipe.ingredients)).card = 1 := by
            decide
          unfold specMatchRatio
          rw [hcard1, hcard2, Nat.cast_one, div_one]
          exact div_le_one_of_le₀ (by decide) (by decide))))

/-! ## C9 -/

/-- The code's `max(len, 1)` missing-ratio denominator computes the spec's
plain ratio. -/
theorem missingRatio_eq (aset rset : Finset String) :
    ((rset \ aset).card : ℚ) / ((max rset.card 1 : ℕ) : ℚ) =
      specMissingRatio aset rset := by
  unfold specMissingRatio
  by_cases h : rset = ∅
  · subst h
    simp
  · have h1 : 1 ≤ rset.card :=
      Finset.card_pos.mpr (Finset.nonempty_iff_ne_empty.mpr h)
    rw [max_eq_left h1]

/-- The code's `max(len, 1)` overlap denominator computes the spec's
guarded ratio. -/
theorem overlapRatio_eq (aset rset : Finset String) :
    ((aset ∩ rset).card : ℚ) / ((max aset.card 1 : ℕ) : ℚ) =
      specOverlapRatio aset rset := by
  unfold specOverlapRatio
  by_cases h : aset = ∅
  · rw [if_pos h]
    subst h
    simp
  · rw [if_neg h]
    have h1 : 1 ≤ aset.card :=
      Finset.card_pos.mpr (Finset.nonempty_iff_ne_empty.mpr h)
    rw [max_eq_left h1]

/-- A position below 3 of the padded-truncated context vector reads the raw
feature list (the raw features always start with the three ratios). -/
theorem encodeContext_getD_lt (available recipe : List String) (pt : ℚ)
    (mt : Option ℚ) (dp : List String) (cd i : ℕ) (hi : i < 3) (hcd : 3 ≤ cd) :
    (encodeContext available recipe pt mt dp cd).getD i 0 =
      (ctxRawFeatures available recipe pt mt dp).getD i 0 := by
  have hrawlen : i < (ctxRawFeatures available recipe pt mt dp).length := by
    unfold ctxRawFeatures
    simp only [List.length_append, List.length_cons, List.length_nil]
    omega
  unfold encodeContext
  rw [List.getD_eq_getElem?_getD, List.getElem?_take,
    if_pos (lt_of_lt_of_le hi hcd), List.getElem?_append_left hrawlen,
    ← List.getD_eq_getElem?_getD]

/-- C9: `encode_context` returns exactly `context_dim` entries; its first
three are coverage, missing-ratio and raw-overlap-ratio over the
lower-cased, trimmed ingredient sets; every position past the raw features
is zero padding.  (Determinism is inherent: the embedding is a pure
function of its five inputs.) -/
theorem encode_context_spec (available recipe : List String) (pt : ℚ)
    (mt : Option ℚ) (dp : List String) (cd : ℕ) (hcd : 3 ≤ cd) :
    (encodeContext available recipe pt mt dp cd).length = cd ∧
    (encodeContext available recipe pt mt dp cd).getD 0 0 =
      specCoverage (ctxSet available) (ctxSet recipe) ∧
    (encodeContext available recipe pt mt dp cd).getD 1 0 =
      specMissingRatio (ctxSet available) (ctxSet recipe) ∧
    (encodeContext available recipe pt mt dp cd).getD 2 0 =
      specOverlapRatio (ctxSet available) (ctxSet recipe) ∧
    ∀ x ∈ (encodeContext available recipe pt mt dp cd).drop
        (ctxRawFeatures available recipe pt mt dp).length, x = 0 := by
  have hraw : ctxRawFeatures available recipe pt mt dp =
      (if ctxSet recipe = ∅ then 0
       else ((ctxSet available ∩ ctxSet recipe).card : ℚ) /
         ((ctxSet recipe).card : ℚ)) ::
      (((ctxSet recipe \ ctxSet available).card : ℚ) /
        ((max (ctxSet recipe).card 1 : ℕ) : ℚ)) ::
      (((ctxSet available ∩ ctxSet recipe).card : ℚ) /
        ((max (ctxSet available).card 1 : ℕ) : ℚ)) ::
      (ctxTimeFeats pt mt ++ ctxDietFeats dp) := rfl
  refine ⟨?_, ?_, ?_, ?_, ?_⟩
  · unfold encodeContext
    rw [List.length_take, List.length_append, List.length_replicate]
    omega
  · rw [encodeContext_getD_lt available recipe pt mt dp cd 0 (by omega) hcd,
      hraw, List.getD_cons_zero]
    rfl
  · rw [encodeContext_getD_lt available recipe pt mt dp cd 1 (by omega) hcd,
      hraw, List.getD_cons_succ, List.getD_cons_zero]
    exact missingRatio_eq _ _
  · rw [encodeContext_getD_lt available recipe pt mt dp cd 2 (by omega) hcd,
      hraw, List.getD_cons_succ, List.getD_cons_succ, List.getD_cons_zero]
    exact overlapRatio_eq _ _
  · intro x hx
    unfold encodeContext at hx
    rw [List.drop_take, List.drop_left] at hx
    exact List.eq_of_mem_replicate (List.take_subset _ _ hx)

/-- Witness for C9 with `context_dim = 10`. -/
theorem encode_context_spec_witness :
    (encodeContext ["Egg ", "flour"] ["egg"] 30 (some 60) [] 10).length = 10 ∧
    (encodeContext ["Egg ", "flour"] ["egg"] 30 (some 60) [] 10).getD 0 0 =
      specCoverage (ctxSet ["Egg ", "flour"]) (ctxSet ["egg"]) ∧
    (encodeContext ["Egg ", "flour"] ["egg"] 30 (some 60) [] 10).getD 1 0 =
      specMissingRatio (ctxSet ["Egg ", "flour"]) (ctxSet ["egg"]) ∧
    (encodeContext ["Egg ", "flour"] ["egg"] 30 (some 60) [] 10).getD 2 0 =
      specOverlapRatio (ctxSet ["Egg ", "flour"]) (ctxSet ["egg"]) ∧
    ∀ x ∈ (encodeContext ["Egg ", "flour"] ["egg"] 30 (some 60) [] 10).drop
        (ctxRawFeatures ["Egg ", "flour"] ["egg"] 30 (some 60) []).length, x = 0 :=
  encode_context_spec ["Egg ", "flour"] ["egg"] 30 (some 60) [] 10 (by decide)

/-! ## C7 -/

theorem argsortDesc_perm (preds : List ℚ) :
    (argsortDesc preds).Perm (List.range preds.length) :=
  List.perm_insertionSort _ _

theorem argsortDesc_sorted (preds : List ℚ) :
    List.Sorted (rankRel preds) (argsortDesc preds) :=
  List.sorted_insertionSort _ _

theorem argsortDesc_nodup (preds : List ℚ) : (argsortDesc preds).Nodup :=
  (argsortDesc_perm preds).nodup_iff.mpr (List.nodup_range _)

theorem mem_argsortDesc (preds : List ℚ) (j : ℕ) :
    j ∈ argsortDesc preds ↔ j < preds.length := by
  rw [(argsortDesc_perm preds).mem_iff, List.mem_range]

/-- The strict argmax heads the descending argsort; every later index is a
different in-range index. -/
theorem argsortDesc_eq_cons (preds : List ℚ) (i : ℕ) (hi : i < preds.length)
    (hmax : ∀ j < preds.length, j ≠ i → preds.getD j 0 < preds.getD i 0) :
    ∃ t, argsortDesc preds = i :: t ∧ ∀ j ∈ t, j < preds.length ∧ j ≠ i := by
  have himem : i ∈ argsortDesc preds := (mem_argsortDesc preds i).mpr hi
  cases hl : argsortDesc preds with
  | nil =>
      rw [hl] at himem
      cases himem
  | cons a t =>
      rw [hl] at himem
      have hsorted := argsortDesc_sorted preds
      rw [hl] at hsorted
      have hnodup := argsortDesc_nodup preds
      rw [hl] at hnodup
      have hai : a = i := by
        by_contra hne
        have hit : i ∈ t := by
          rcases List.mem_cons.mp himem with h | h
          · exact absurd h.symm hne
          · exact h
        have hrel : rankRel preds a i := List.rel_of_sorted_cons hsorted i hit
        have ha_lt : a < preds.length := by
          have : a ∈ argsortDesc preds := by
            rw [hl]
            exact List.mem_cons_self _ _
          exact (mem_argsortDesc preds a).mp this
        exact absurd hrel (not_le.mpr (hmax a ha_lt hne))
      subst hai
      refine ⟨t, rfl, fun j hj => ⟨?_, ?_⟩⟩
      · have : j ∈ argsortDesc preds := by
          rw [hl]
          exact List.mem_cons_of_mem _ hj
        exact (mem_argsortDesc preds j).mp this
      · intro hji
        rw [hji] at hj
        exact (List.nodup_cons.mp hnodup).1 hj

/-- A relevance list of zeros contributes no gain. -/
theorem dcgAux_zeros (l : List ℚ) (h : ∀ s ∈ l, s = 0) (idx : ℕ) :
    dcgAux l idx = 0 := by
  induction l generalizing idx with
  | nil => rfl
  | cons s rest ih =>
      unfold dcgAux
      rw [h s (List.mem_cons_self _ _), Rat.cast_zero, Real.rpow_zero,
        sub_self, zero_div, zero_add]
      exact ih (fun a ha => h a (List.mem_cons_of_mem _ ha)) _

/-- DCG of one leading relevance followed by zeros: the head gain over
`log2 2 = 1`. -/
theorem dcg_head_zeros (r : ℚ) (l : List ℚ) (h : ∀ s ∈ l, s = 0) :
    dcg (r :: l) = (2 : ℝ) ^ ((r : ℚ) : ℝ) - 1 := by
  unfold dcg dcgAux
  rw [dcgAux_zeros l h 1, add_zero, Nat.cast_zero, zero_add,
    Real.logb_self_eq_one (by norm_num : (1:ℝ) < 2), div_one]

/-- Positionwise-zero lists are elementwise zero. -/
theorem all_zero_of_getD (l : List ℚ) (h : ∀ j < l.length, l.getD j 0 = 0) :
    ∀ x ∈ l, x = 0 := by
  intro x hx
  obtain ⟨n, hn, hget⟩ := List.mem_iff_getElem.mp hx
  have h' := h n hn
  rw [List.getD_eq_getElem _ _ hn] at h'
  rw [← hget]
  exact h'

/-- In a list that is zero away from position `i`, every element is the
position-`i` value or zero. -/
theorem getD_elem_cases (l : List ℚ) (i : ℕ) (hi : i < l.length)
    (honly : ∀ j < l.length, j ≠ i → l.getD j 0 = 0) :
    ∀ x ∈ l, x = l.getD i 0 ∨ x = 0 := by
  intro x hx
  obtain ⟨n, hn, hget⟩ := List.mem_iff_getElem.mp hx
  by_cases hni : n = i
  · left
    subst hni
    rw [← hget, List.getD_eq_getElem _ _ hn]
  · right
    rw [← hget, ← List.getD_eq_getElem _ _ hn]
    exact honly n hn hni

/-- Exactly one positive entry means the positive count is one. -/
theorem countP_pos_single (l : List ℚ) (i : ℕ) (hi : i < l.length)
    (hrel : 0 < l.getD i 0) (honly : ∀ j < l.length, j ≠ i → l.getD j 0 = 0) :
    l.countP (fun s => decide (0 < s)) = 1 := by
  induction l generalizing i with
  | nil => simp at hi
  | cons x xs ih =>
      cases i with
      | zero =>
          have hx : 0 < x := by simpa using hrel
          have hxs : ∀ j < xs.length, xs.getD j 0 = 0 := by
            intro j hj
            have h' := honly (j + 1) (by simpa using Nat.succ_lt_succ hj) (by simp)
            simpa using h'
          have hzero : xs.countP (fun s => decide (0 < s)) = 0 :=
            List.countP_eq_zero.mpr (by
              intro a ha
              have := all_zero_of_getD xs hxs a ha
              simp [this])
          rw [List.countP_cons, hzero]
          simp [hx]
      | succ m =>
          have hx0 : x = 0 := by
            have h' := honly 0 (Nat.succ_pos _) (by omega)
            simpa using h'
          have hi' : m < xs.length := by simpa using hi
          have hrel' : 0 < xs.getD m 0 := by simpa using hrel
          have honly' : ∀ j < xs.length, j ≠ m → xs.getD j 0 = 0 := by
            intro j hj hjm
            have h' := honly (j + 1) (by simpa using Nat.succ_lt_succ hj) (by omega)
            simpa using h'
          rw [List.countP_cons, ih m hi' hrel' honly']
          simp [hx0]

/-- The descending value sort of a single-positive-entry list: the positive
value first, zeros after. -/
theorem sortValuesDesc_single (gt : List ℚ) (i : ℕ) (hi : i < gt.length)
    (hrel : 0 < gt.getD i 0) (honly : ∀ j < gt.length, j ≠ i → gt.getD j 0 = 0) :
    ∃ t, sortValuesDesc gt = gt.getD i 0 :: t ∧ ∀ s ∈ t, s = 0 := by
  have hperm : (sortValuesDesc gt).Perm gt := List.perm_insertionSort _ _
  have hsorted : List.Sorted descRel (sortValuesDesc gt) :=
    List.sorted_insertionSort _ _
  have hcount : (sortValuesDesc gt).countP (fun s => decide (0 < s)) = 1 := by
    rw [hperm.countP_eq]
    exact countP_pos_single gt i hi hrel honly
  have hmem : gt.getD i 0 ∈ sortValuesDesc gt := by
    rw [hperm.mem_iff, List.getD_eq_getElem _ _ hi]
    exact List.getElem_mem hi
  cases hsv : sortValuesDesc gt with
  | nil =>
      rw [hsv] at hmem
      cases hmem
  | cons b t =>
      rw [hsv] at hmem hsorted hcount
      have hbpos : 0 < b := by
        rcases List.mem_cons.mp hmem with h | h
        · rw [← h]
          exact hrel
        · exact lt_of_lt_of_le hrel (List.rel_of_sorted_cons hsorted _ h)
      have hbmem : b ∈ gt := by
        refine hperm.subset ?_
        rw [hsv]
        exact List.mem_cons_self _ _
      have hb_eq : b = gt.getD i 0 := by
        rcases getD_elem_cases gt i hi honly b hbmem with h | h
        · exact h
        · rw [h] at hbpos
          exact absurd hbpos (lt_irrefl 0)
      refine ⟨t, by rw [hb_eq], fun s hs => ?_⟩
      have hct : t.countP (fun s => decide (0 < s)) = 0 := by
        rw [List.countP_cons] at hcount
        simpa [hbpos] using hcount
      have hs_np : ¬0 < s := by
        have := List.countP_eq_zero.mp hct s hs
        simpa using this
      have hsmem : s ∈ gt := by
        refine hperm.subset ?_
        rw [hsv]
        exact List.mem_cons_of_mem _ hs
      rcases getD_elem_cases gt i hi honly s hsmem with h | h
      · rw [h] at hs_np
        exact absurd hrel hs_np
      · exact h

/-- The rank loop returns zero when no listed index is relevant. -/
theorem mrrAux_zero (gt : List ℚ) (l : List ℕ)
    (h : ∀ j ∈ l, ¬0 < gt.getD j 0) (rank : ℕ) : mrrAux gt l rank = 0 := by
  induction l generalizing rank with
  | nil => rfl
  | cons j rest ih =>
      unfold mrrAux
      rw [if_neg (h j (List.mem_cons_self _ _))]
      exact ih (fun a ha => h a (List.mem_cons_of_mem _ ha)) _

/-- C7: when exactly one item is relevant and it is the strict argmax of the
predictions, NDCG@k, Recall@k (k ≥ 1) and MRR all equal exactly 1; with no
relevant item, all three equal exactly 0. -/
theorem evaluator_metrics_extremes (preds gt : List ℚ) (k : ℕ)
    (hlen : preds.length = gt.length) (hk : 1 ≤ k) :
    (∀ i, i < gt.length → 0 < gt.getD i 0 →
      (∀ j < gt.length, j ≠ i → gt.getD j 0 = 0) →
      (∀ j < preds.length, j ≠ i → preds.getD j 0 < preds.getD i 0) →
      ndcgAtK preds gt k = 1 ∧ recallAtK preds gt k = 1 ∧ mrr preds gt = 1) ∧
    ((∀ j < gt.length, gt.getD j 0 = 0) →
      ndcgAtK preds gt k = 0 ∧ recallAtK preds gt k = 0 ∧ mrr preds gt = 0) := by
  constructor
  · intro i hi hrel honly hmax
    obtain ⟨k', hk'⟩ : ∃ k', k = k' + 1 := ⟨k - 1, by omega⟩
    have hi' : i < preds.length := by
      rw [hlen]
      exact hi
    obtain ⟨t, hsort, ht⟩ := argsortDesc_eq_cons preds i hi' hmax
    have htop : (argsortDesc preds).take k = i :: t.take k' := by
      rw [hsort, hk', List.take_succ_cons]
    have htzero : ∀ s ∈ (t.take k').map (fun j => gt.getD j 0), s = 0 := by
      intro s hs
      obtain ⟨j, hj, rfl⟩ := List.mem_map.mp hs
      obtain ⟨hjlen, hjne⟩ := ht j (List.take_subset _ _ hj)
      refine honly j ?_ hjne
      rw [← hlen]
      exact hjlen
    have hdtop : dcg (((argsortDesc preds).take k).map fun j => gt.getD j 0) =
        (2 : ℝ) ^ ((gt.getD i 0 : ℚ) : ℝ) - 1 := by
      rw [htop, List.map_cons]
      exact dcg_head_zeros _ _ htzero
    obtain ⟨u, hsv, hu⟩ := sortValuesDesc_single gt i hi hrel honly
    have hdideal : dcg ((sortValuesDesc gt).take k) =
        (2 : ℝ) ^ ((gt.getD i 0 : ℚ) : ℝ) - 1 := by
      rw [hsv, hk', List.take_succ_cons]
      exact dcg_head_zeros _ _ (fun s hs => hu s (List.take_subset _ _ hs))
    have hpos : (0 : ℝ) < (2 : ℝ) ^ ((gt.getD i 0 : ℚ) : ℝ) - 1 := by
      rw [sub_pos]
      exact (Real.one_lt_rpow_iff_of_pos (by norm_num)).mpr
        (Or.inl ⟨by norm_num, Rat.cast_pos.mpr hrel⟩)
    refine ⟨?_, ?_, ?_⟩
    · unfold ndcgAtK
      rw [hdideal, hdtop, if_neg (ne_of_gt hpos)]
      exact div_self (ne_of_gt hpos)
    · unfold recallAtK
      have hcnt : gt.countP (fun s => decide (0 < s)) = 1 :=
        countP_pos_single gt i hi hrel honly
      have hfil : ((argsortDesc preds).take k).filter
          (fun j => decide (0 < gt.getD j 0)) = [i] := by
        have hnil : (t.take k').filter (fun j => decide (0 < gt.getD j 0)) = [] := by
          rw [List.filter_eq_nil_iff]
          intro j hj
          obtain ⟨hjlen, hjne⟩ := ht j (List.take_subset _ _ hj)
          have hz : gt.getD j 0 = 0 := by
            refine honly j ?_ hjne
            rw [← hlen]
            exact hjlen
          show ¬decide (0 < gt.getD j 0) = true
          rw [hz]
          decide
        rw [htop]
        simp only [List.filter_cons, decide_eq_true hrel, if_true, hnil]
      rw [hcnt, if_neg one_ne_zero, hfil]
      simp
    · unfold mrr
      rw [hsort]
      unfold mrrAux
      rw [if_pos hrel, Nat.cast_one, div_one]
  · intro hzero
    have hallz : ∀ x ∈ gt, x = 0 := all_zero_of_getD gt hzero
    refine ⟨?_, ?_, ?_⟩
    · unfold ndcgAtK
      have hdideal : dcg ((sortValuesDesc gt).take k) = 0 := by
        unfold dcg
        exact dcgAux_zeros _
          (fun s hs => hallz s
            ((List.perm_insertionSort _ _).subset (List.take_subset _ _ hs))) 0
      rw [if_pos hdideal]
    · unfold recallAtK
      have hcnt : gt.countP (fun s => decide (0 < s)) = 0 :=
        List.countP_eq_zero.mpr (by
          intro a ha
          simp [hallz a ha])
      rw [if_pos hcnt]
    · unfold mrr
      refine mrrAux_zero gt _ (fun j hj => ?_) 1
      by_cases hjl : j < gt.length
      · rw [hzero j hjl]
        exact lt_irrefl 0
      · rw [List.getD_eq_default _ _ (Nat.le_of_not_lt hjl)]
        exact lt_irrefl 0

/-- Witness for C7: single relevant item ranked first on `[3, 1, 2]` with
relevances `[2, 0, 0]`, and the all-zero-relevance case. -/
theorem evaluator_metrics_extremes_witness :
    (ndcgAtK [3, 1, 2] [2, 0, 0] 2 = 1 ∧ recallAtK [3, 1, 2] [2, 0, 0] 2 = 1 ∧
      mrr [3, 1, 2] [2, 0, 0] = 1) ∧
    (ndcgAtK [1, 2] [0, 0] 1 = 0 ∧ recallAtK [1, 2] [0, 0] 1 = 0 ∧
      mrr [1, 2] [0, 0] = 0) :=
  ⟨(evaluator_metrics_extremes [3, 1, 2] [2, 0, 0] 2 (by decide) (by decide)).1
      0 (by decide) (by decide) (by decide) (by decide),
   (evaluator_metrics_extremes [1, 2] [0, 0] 1 (by decide) (by decide)).2
      (by decide)⟩

end SaveEat
